import Mathlib

/-!
# EKS Anywhere: Snow machine-config reconciler and Snow role annotations

A shallow embedding of `controllers/snow_machineconfig_controller.go`
(`SnowMachineConfigReconciler.Reconcile` and `reconcile`) together with the
role-annotation step exercised by `pkg/cluster/snow_test.go`.

Stateful Go code is rendered with explicit state passing: the object that the
Go code mutates through a pointer is threaded through the functions, and every
call to a collaborator (object store, patch helper, client builder, validators)
is appended to a trace together with the value it returned.
-/

namespace EksAnywhere

/-! ## Errors -/

/-- An error value handed back by a collaborator (object store, patch helper,
client builder, validator), whatever its dynamic Go type: `msg` is what its
`Error()` method prints, `notFound` tells whether `apierrors.IsNotFound` holds
of it. -/
structure CollabError where
  msg : String
  notFound : Bool
deriving DecidableEq, Repr

/-- A Go `error` value as it flows through the reconciler: either a value
produced by a collaborator or a `kerrors.Aggregate` built by `NewAggregate`. -/
inductive GoError where
  | ext (e : CollabError)
  | aggregate (errs : List GoError)
deriving Repr

mutual
/-- Structural equality test on errors. -/
def GoError.beq : GoError → GoError → Bool
  | .ext a, .ext b => a == b
  | .aggregate as, .aggregate bs => GoError.beqList as bs
  | _, _ => false
/-- Structural equality test on lists of errors. -/
def GoError.beqList : List GoError → List GoError → Bool
  | [], [] => true
  | a :: as, b :: bs => GoError.beq a b && GoError.beqList as bs
  | _, _ => false
end

mutual
/-- Tells whether `target` occurs in `err`: `err` is `target` itself, or `err`
is an aggregate one of whose members (at any depth) is `target`. -/
def GoError.contains (target : GoError) : GoError → Bool
  | .ext e => GoError.beq (.ext e) target
  | .aggregate errs =>
      GoError.beq (.aggregate errs) target || GoError.containsAny target errs
/-- Tells whether `target` occurs in one of the listed errors. -/
def GoError.containsAny (target : GoError) : List GoError → Bool
  | [] => false
  | e :: es => GoError.contains target e || GoError.containsAny target es
end

/-- Modelled from the spec: `kerrors.NewAggregate` of k8s.io/apimachinery, which
the reconciler calls but which is not part of the embedded sources. It combines
the given errors and drops none of them ("its error is combined with any prior
reconcile error rather than either being dropped; callers see both"): the nil
entries of the list are skipped, an empty remainder is the nil error, anything
else is an aggregate of the remaining errors in their order. -/
def NewAggregate (errlist : List (Option GoError)) : Option GoError :=
  match errlist.filterMap id with
  | [] => none
  | errs => some (GoError.aggregate errs)

/-! ## The reconciled object -/

/-- Modelled from the spec: the `anywherev1.SnowMachineConfig` status block,
`FailureMessage: optional string` and `SpecValid: bool`; the Go type is declared
outside the embedded sources. -/
structure SnowMachineConfigStatus where
  SpecValid : Bool
  FailureMessage : Option String
deriving DecidableEq, Repr

/-- Modelled from the spec: the desired-state part of a Snow machine config. The
reconciler never writes to it; the fields stand for the settings the validators
inspect (image, instance type, ssh key, device addresses). -/
structure SnowMachineConfigSpec where
  AMIID : String
  InstanceType : String
  SshKeyName : String
  Devices : List String
deriving DecidableEq, Repr

/-- Time stamps are counted from Go's zero time instant, so `0` is the instant
for which `time.Time.IsZero` holds. -/
abbrev Time := Int

/-- Modelled from the spec: `anywherev1.SnowMachineConfig`, declared outside the
embedded sources: object metadata (name, namespace, generation, annotations as a
string-keyed map, the optional deletion marker), spec and status. -/
structure SnowMachineConfig where
  Name : String
  Namespace : String
  Generation : Int
  Annotations : List (String × String)
  DeletionTimestamp : Option Time
  Spec : SnowMachineConfigSpec
  Status : SnowMachineConfigStatus
deriving DecidableEq, Repr

/-- The `IsZero` test of `*metav1.Time`: a nil pointer or the zero instant. -/
def DeletionTimestampIsZero (t : Option Time) : Bool :=
  match t with
  | none => true
  | some v => v == 0

/-! ## Collaborators and trace -/

/-- The key `req.NamespacedName` of a reconcile request. -/
structure NamespacedName where
  Namespace : String
  Name : String
deriving DecidableEq, Repr

/-- The value `ctrl.Result` returned next to the error. -/
structure Result where
  Requeue : Bool
  RequeueAfter : Nat
deriving DecidableEq, Repr

/-- The literal `ctrl.Result{}`. -/
def Result.empty : Result := { Requeue := false, RequeueAfter := 0 }

/-- The device clients built by `BuildSnowAwsClientMap`, keyed by device. -/
structure Clients where
  devices : List String
deriving DecidableEq, Repr

/-- Options passed to `patchHelper.Patch`. -/
inductive PatchOption where
  | WithStatusObservedGeneration
deriving DecidableEq, Repr

/-- The three validators of `snow.Validator` that `reconcile` invokes. -/
inductive ValidatorId where
  | ValidateMachineDeviceIPs
  | ValidateEC2ImageExistsOnDevice
  | ValidateEC2SshKeyNameExists
deriving DecidableEq, Repr

/-- Position of a validator in the pipeline of `reconcile`, counted from 1. -/
def ValidatorId.position : ValidatorId → Nat
  | .ValidateMachineDeviceIPs => 1
  | .ValidateEC2ImageExistsOnDevice => 2
  | .ValidateEC2SshKeyNameExists => 3

/-- The collaborators of the reconciler, each given by what it answers. The
validators only read the object they are handed. `Patch` receives the state
captured by `patch.NewHelper`, the object to persist and the options. -/
structure Env where
  Get : NamespacedName → Except CollabError SnowMachineConfig
  NewHelper : SnowMachineConfig → Option CollabError
  BuildSnowAwsClientMap : Except CollabError Clients
  ValidateMachineDeviceIPs : Clients → SnowMachineConfig → Option CollabError
  ValidateEC2ImageExistsOnDevice : Clients → SnowMachineConfig → Option CollabError
  ValidateEC2SshKeyNameExists : Clients → SnowMachineConfig → Option CollabError
  Patch : SnowMachineConfig → SnowMachineConfig → List PatchOption → Option CollabError

/-- The validator of the environment with the given identifier. -/
def Env.validator (env : Env) : ValidatorId → Clients → SnowMachineConfig → Option CollabError
  | .ValidateMachineDeviceIPs => env.ValidateMachineDeviceIPs
  | .ValidateEC2ImageExistsOnDevice => env.ValidateEC2ImageExistsOnDevice
  | .ValidateEC2SshKeyNameExists => env.ValidateEC2SshKeyNameExists

/-- One call to a collaborator, with the error it returned (`none` for nil). -/
inductive Call where
  | Get (req : NamespacedName) (ret : Option CollabError)
  | NewHelper (obj : SnowMachineConfig) (ret : Option CollabError)
  | BuildSnowAwsClientMap (ret : Option CollabError)
  | Validate (v : ValidatorId) (obj : SnowMachineConfig) (ret : Option CollabError)
  | Patch (obj : SnowMachineConfig) (opts : List PatchOption) (ret : Option CollabError)
deriving DecidableEq, Repr

/-- Recognises calls to `patchHelper.Patch`. -/
def Call.isPatch : Call → Bool
  | .Patch _ _ _ => true
  | _ => false

/-- Recognises calls to `BuildSnowAwsClientMap`. -/
def Call.isBuild : Call → Bool
  | .BuildSnowAwsClientMap _ => true
  | _ => false

/-- Recognises calls to a validator. -/
def Call.isValidate : Call → Bool
  | .Validate _ _ _ => true
  | _ => false

/-- The error a call returned (`none` for nil). -/
def Call.ret : Call → Option CollabError
  | .Get _ ret => ret
  | .NewHelper _ ret => ret
  | .BuildSnowAwsClientMap ret => ret
  | .Validate _ _ ret => ret
  | .Patch _ _ ret => ret

/-- The validator a call invokes, if it is a validator call. -/
def Call.validatorId : Call → Option ValidatorId
  | .Validate v _ _ => some v
  | _ => none

/-- The validators invoked along a trace, in the order of invocation. -/
def validatorsInvoked (calls : List Call) : List ValidatorId :=
  calls.filterMap Call.validatorId

/-- The validators in the order in which `reconcile` lists them. -/
def validatorPipeline : List ValidatorId :=
  [.ValidateMachineDeviceIPs, .ValidateEC2ImageExistsOnDevice, .ValidateEC2SshKeyNameExists]

/-! ## `reconcile` and `Reconcile` -/

/-- What `reconcile` leaves behind: the object after its in-place updates, the
returned result and error, and the collaborator calls it made. -/
structure ReconcileOut where
  obj : SnowMachineConfig
  result : Result
  err : Option GoError
  calls : List Call

/-- The two statements `failureMessage := err.Error()` and
`snowMachineConfig.Status.FailureMessage = &failureMessage`. -/
def setFailureMessage (snowMachineConfig : SnowMachineConfig) (err : CollabError) :
    SnowMachineConfig :=
  { snowMachineConfig with
    Status := { snowMachineConfig.Status with FailureMessage := some err.msg } }

/-- The method `SnowMachineConfigReconciler.reconcile`. -/
def reconcile (env : Env) (snowMachineConfig : SnowMachineConfig) : ReconcileOut :=
  match env.BuildSnowAwsClientMap with
  | .error err =>
    { obj := setFailureMessage snowMachineConfig err
      result := Result.empty
      err := some (.ext err)
      calls := [.BuildSnowAwsClientMap (some err)] }
  | .ok deviceClientMap =>
    match env.ValidateMachineDeviceIPs deviceClientMap snowMachineConfig with
    | some err =>
      { obj := setFailureMessage snowMachineConfig err
        result := Result.empty
        err := some (.ext err)
        calls := [.BuildSnowAwsClientMap none,
          .Validate .ValidateMachineDeviceIPs snowMachineConfig (some err)] }
    | none =>
      match env.ValidateEC2ImageExistsOnDevice deviceClientMap snowMachineConfig with
      | some err =>
        { obj := setFailureMessage snowMachineConfig err
          result := Result.empty
          err := some (.ext err)
          calls := [.BuildSnowAwsClientMap none,
            .Validate .ValidateMachineDeviceIPs snowMachineConfig none,
            .Validate .ValidateEC2ImageExistsOnDevice snowMachineConfig (some err)] }
      | none =>
        match env.ValidateEC2SshKeyNameExists deviceClientMap snowMachineConfig with
        | some err =>
          { obj := setFailureMessage snowMachineConfig err
            result := Result.empty
            err := some (.ext err)
            calls := [.BuildSnowAwsClientMap none,
              .Validate .ValidateMachineDeviceIPs snowMachineConfig none,
              .Validate .ValidateEC2ImageExistsOnDevice snowMachineConfig none,
              .Validate .ValidateEC2SshKeyNameExists snowMachineConfig (some err)] }
        | none =>
          { obj := { snowMachineConfig with
                     Status := { snowMachineConfig.Status with SpecValid := true } }
            result := Result.empty
            err := none
            calls := [.BuildSnowAwsClientMap none,
              .Validate .ValidateMachineDeviceIPs snowMachineConfig none,
              .Validate .ValidateEC2ImageExistsOnDevice snowMachineConfig none,
              .Validate .ValidateEC2SshKeyNameExists snowMachineConfig none] }

/-- What one invocation of `Reconcile` leaves behind: the returned result and
error, the object with the updates `Reconcile` made to it, which is the state
handed to the patch helper (`none` when the fetch failed), and the collaborator
calls in the order they were made. -/
structure ReconcileResult where
  result : Result
  reterr : Option GoError
  obj : Option SnowMachineConfig
  calls : List Call

/-- The part of `Reconcile` between the `defer` statement and the return: the
deletion check and the call to `reconcile`. It yields the object, the result,
the value of `reterr` at the return statement and the calls made. -/
def reconcileBody (env : Env) (snowMachineConfig : SnowMachineConfig) : ReconcileOut :=
  if !DeletionTimestampIsZero snowMachineConfig.DeletionTimestamp then
    { obj := snowMachineConfig, result := Result.empty, err := none, calls := [] }
  else
    let out := reconcile env snowMachineConfig
    match out.err with
    | some err => { out with err := NewAggregate [none, some err] }
    | none => { out with err := none }

/-- The options the deferred function passes to `Patch`. -/
def patchOpts (reterr : Option GoError) : List PatchOption :=
  match reterr with
  | none => [PatchOption.WithStatusObservedGeneration]
  | some _ => []

/-- The deferred function of `Reconcile`: it patches the object and, when the
patch fails, replaces `reterr` by the aggregate of `reterr` and the patch
error. It yields the final `reterr` and the patch call. -/
def deferredPatch (env : Env) (base snowMachineConfig : SnowMachineConfig)
    (reterr : Option GoError) : Option GoError × List Call :=
  match env.Patch base snowMachineConfig (patchOpts reterr) with
  | some err =>
    (NewAggregate [reterr, some (.ext err)],
      [.Patch snowMachineConfig (patchOpts reterr) (some err)])
  | none => (reterr, [.Patch snowMachineConfig (patchOpts reterr) none])

/-- The method `SnowMachineConfigReconciler.Reconcile`. -/
def Reconcile (env : Env) (req : NamespacedName) : ReconcileResult :=
  match env.Get req with
  | .error err =>
    { result := Result.empty, reterr := some (.ext err), obj := none
      calls := [.Get req (some err)] }
  | .ok snowMachineConfig =>
    match env.NewHelper snowMachineConfig with
    | some err =>
      { result := Result.empty, reterr := some (.ext err), obj := some snowMachineConfig
        calls := [.Get req none, .NewHelper snowMachineConfig (some err)] }
    | none =>
      let body := reconcileBody env snowMachineConfig
      let deferred := deferredPatch env snowMachineConfig body.obj body.err
      { result := body.result, reterr := deferred.1, obj := some body.obj
        calls := [.Get req none, .NewHelper snowMachineConfig none] ++ body.calls ++ deferred.2 }

/-! ## Role annotations on Snow machine configs -/

/-- Reading a string-keyed Go map, kept as a list of entries: the value stored
under `k`, if any. -/
def mapGet {α : Type} : List (String × α) → String → Option α
  | [], _ => none
  | (k', v) :: rest, k => if k' = k then some v else mapGet rest k

/-- The assignment `m[k] = v` on a string-keyed Go map: the entry under `k` is
replaced where it stands, or a new entry is added. -/
def mapSet {α : Type} : List (String × α) → String → α → List (String × α)
  | [], k, v => [(k, v)]
  | (k', v') :: rest, k, v =>
    if k' = k then (k, v) :: rest else (k', v') :: mapSet rest k v

/-- Annotation key of the control-plane role. -/
def controlPlaneAnnotation : String := "anywhere.eks.amazonaws.com/control-plane"

/-- Annotation key of the external-etcd role. -/
def etcdAnnotation : String := "anywhere.eks.amazonaws.com/etcd"

/-- Annotation key naming the owning management cluster. -/
def managedByAnnotation : String := "anywhere.eks.amazonaws.com/managed-by"

/-- Modelled from the spec: `Ref`, `{Kind: string, Name: string, Namespace:
string}`, declared outside the embedded sources. -/
structure Ref where
  Kind : String
  Name : String
  Namespace : String
deriving DecidableEq, Repr

/-- Modelled from the spec: the cluster descriptor, declared outside the
embedded sources: identity, a datacenter Ref, a control-plane machine-group Ref,
an optional external-etcd machine-group Ref, the worker-group Refs and the name
of the owning management cluster (empty for a management cluster). -/
structure Cluster where
  Name : String
  Namespace : String
  DatacenterRef : Ref
  ControlPlaneMachineGroupRef : Ref
  ExternalEtcdMachineGroupRef : Option Ref
  WorkerNodeGroupMachineGroupRefs : List Ref
  ManagementClusterName : String
deriving DecidableEq, Repr

/-- Modelled from the spec: the part of `cluster.Config` that the annotation
step reads and writes, the cluster descriptor and the mapping from name to Snow
machine config; the Go type is declared outside the embedded sources. -/
structure Config where
  Cluster : Cluster
  SnowMachineConfigs : List (String × SnowMachineConfig)
deriving DecidableEq, Repr

/-- Writes one annotation into the metadata of a machine config. -/
def SnowMachineConfig.setAnnotation (m : SnowMachineConfig) (k v : String) :
    SnowMachineConfig :=
  { m with Annotations := mapSet m.Annotations k v }

/-- Modelled from the spec: rule 3 of the annotation step, which is not part of
the embedded sources: "If the descriptor names a management cluster
(workload-cluster case), every MachineConfig touched by rules 1-2 additionally
receives managed-by = <management-cluster-name>; a management cluster (no owning
management-cluster name) receives no managed-by annotation". -/
def setManagedBy (cluster : Cluster) (m : SnowMachineConfig) : SnowMachineConfig :=
  if cluster.ManagementClusterName = "" then m
  else m.setAnnotation managedByAnnotation cluster.ManagementClusterName

/-- Modelled from the spec: `cluster.SetSnowMachineConfigsAnnotations`, of which
only the test is part of the embedded sources. Rule 1: "The MachineConfig
referenced by the control-plane group Ref receives annotation control-plane =
true". Rule 2: "The MachineConfig referenced by the external-etcd group Ref, if
present, receives annotation etcd = true". Rule 3 is `setManagedBy`. Rule 4:
worker-group machine configs are not stamped. No other key is written or
removed. The spec does not say what happens when a Ref names no entry of the
mapping; here that is reported as an error and the config is not returned. -/
def SetSnowMachineConfigsAnnotations (c : Config) : Except String Config :=
  let cp := c.Cluster.ControlPlaneMachineGroupRef.Name
  match mapGet c.SnowMachineConfigs cp with
  | none => .error ("no machine config named " ++ cp)
  | some m =>
    let configs := mapSet c.SnowMachineConfigs cp
      (setManagedBy c.Cluster (m.setAnnotation controlPlaneAnnotation "true"))
    match c.Cluster.ExternalEtcdMachineGroupRef with
    | none => .ok { c with SnowMachineConfigs := configs }
    | some ref =>
      match mapGet configs ref.Name with
      | none => .error ("no machine config named " ++ ref.Name)
      | some m =>
        .ok { c with
              SnowMachineConfigs := mapSet configs ref.Name
                (setManagedBy c.Cluster (m.setAnnotation etcdAnnotation "true")) }

/-- The value of annotation `key` on the machine config stored under `name`:
`none` when there is no such entry, `some none` when the entry lacks the key. -/
def annotationOf (configs : List (String × SnowMachineConfig)) (name key : String) :
    Option (Option String) :=
  (mapGet configs name).map (fun m => mapGet m.Annotations key)

/-! ## Concrete scenarios -/

/-- A machine config carrying only a name. -/
def machineNamed (name : String) : SnowMachineConfig :=
  { Name := name, Namespace := "", Generation := 0, Annotations := [],
    DeletionTimestamp := none,
    Spec := { AMIID := "", InstanceType := "", SshKeyName := "", Devices := [] },
    Status := { SpecValid := false, FailureMessage := none } }

/-- The config of the test case "workload cluster with external etcd". -/
def workloadConfig : Config :=
  { Cluster :=
      { Name := "test-cluster", Namespace := ""
        DatacenterRef := { Kind := "", Name := "", Namespace := "" }
        ControlPlaneMachineGroupRef := { Kind := "", Name := "cp-machine", Namespace := "" }
        ExternalEtcdMachineGroupRef := some { Kind := "", Name := "etcd-machine", Namespace := "" }
        WorkerNodeGroupMachineGroupRefs := []
        ManagementClusterName := "mgmt-cluster" }
    SnowMachineConfigs :=
      [("cp-machine", machineNamed "cp-machine"), ("etcd-machine", machineNamed "etcd-machine")] }

/-- The config of the test case "management cluster". -/
def managementConfig : Config :=
  { Cluster :=
      { Name := "test-cluster", Namespace := ""
        DatacenterRef := { Kind := "", Name := "", Namespace := "" }
        ControlPlaneMachineGroupRef := { Kind := "", Name := "cp-machine", Namespace := "" }
        ExternalEtcdMachineGroupRef := none
        WorkerNodeGroupMachineGroupRefs := []
        ManagementClusterName := "" }
    SnowMachineConfigs := [("cp-machine", machineNamed "cp-machine")] }

/-- A fetched object that is not marked for deletion. -/
def sampleObject : SnowMachineConfig :=
  { Name := "machine-1", Namespace := "default", Generation := 2, Annotations := [],
    DeletionTimestamp := none,
    Spec := { AMIID := "ami-1", InstanceType := "sbe-c.large", SshKeyName := "default",
              Devices := ["10.0.0.1"] },
    Status := { SpecValid := true, FailureMessage := some "stale" } }

/-- The same object with its deletion marker set. -/
def deletingObject : SnowMachineConfig :=
  { sampleObject with DeletionTimestamp := some 1700000000 }

/-- The request naming the sample object. -/
def sampleRequest : NamespacedName := { Namespace := "default", Name := "machine-1" }

/-- An environment in which every collaborator succeeds. -/
def envAllPass : Env :=
  { Get := fun _ => .ok sampleObject
    NewHelper := fun _ => none
    BuildSnowAwsClientMap := .ok { devices := ["10.0.0.1"] }
    ValidateMachineDeviceIPs := fun _ _ => none
    ValidateEC2ImageExistsOnDevice := fun _ _ => none
    ValidateEC2SshKeyNameExists := fun _ _ => none
    Patch := fun _ _ _ => none }

/-- The error of the failing image validator in the scenarios below. -/
def imageError : CollabError := { msg := "image not found on device", notFound := false }

/-- The error of the failing patch in the scenarios below. -/
def patchError : CollabError := { msg := "conflict", notFound := false }

/-- The error of the failing client build in the scenarios below. -/
def buildError : CollabError := { msg := "no credentials", notFound := false }

/-- The error of the failing fetch in the scenarios below. -/
def notFoundError : CollabError := { msg := "snowmachineconfig not found", notFound := true }

/-- The error of the failing patch-helper creation in the scenarios below. -/
def helperError : CollabError := { msg := "no kind registered", notFound := false }

/-- An environment in which the second validator fails. -/
def envImageFails : Env :=
  { envAllPass with ValidateEC2ImageExistsOnDevice := fun _ _ => some imageError }

/-- An environment in which the second validator and the patch fail. -/
def envImageAndPatchFail : Env :=
  { envImageFails with Patch := fun _ _ _ => some patchError }

/-- An environment in which the client build fails. -/
def envBuildFails : Env :=
  { envAllPass with BuildSnowAwsClientMap := .error buildError }

/-- An environment in which the fetched object is marked for deletion. -/
def envDeleting : Env :=
  { envAllPass with Get := fun _ => .ok deletingObject }

/-- An environment in which the object does not exist. -/
def envNotFound : Env :=
  { envAllPass with Get := fun _ => .error notFoundError }

/-- An environment in which the patch helper cannot be created although the
object was fetched, for an object that is not marked for deletion. -/
def envHelperFails : Env :=
  { envAllPass with NewHelper := fun _ => some helperError }

/-- An environment in which the patch helper cannot be created for a fetched
object that is marked for deletion. -/
def envDeletingHelperFails : Env :=
  { envDeleting with NewHelper := fun _ => some helperError }

/-- A management-cluster config whose control-plane machine config already
carries a managed-by annotation before the annotation step runs. -/
def managementConfigPreannotated : Config :=
  { managementConfig with
    SnowMachineConfigs :=
      [("cp-machine",
        { machineNamed "cp-machine" with
          Annotations := [("anywhere.eks.amazonaws.com/managed-by", "former-mgmt")] })] }

/-! ## Default identity of a Snow datacenter config -/

/-- Modelled from the spec: `anywherev1.SnowDatacenterConfig`, declared outside
the embedded sources: object metadata and the `IdentityRef` of its spec. -/
structure SnowDatacenterConfig where
  Name : String
  Namespace : String
  Annotations : List (String × String)
  IdentityRef : Ref
deriving DecidableEq, Repr

/-- The zero value of `Ref`, which is what an empty `IdentityRef` holds. -/
def Ref.empty : Ref := { Kind := "", Name := "", Namespace := "" }

/-- Modelled from the spec: `cluster.SetSnowDatacenterIndentityRefDefault`, of
which only the test is part of the embedded sources: "When the provider's
datacenter config carries an IdentityRef that is empty, synthesize a default
(Kind: Secret, Name: <cluster-name>-<provider>-credentials)". The function is
handed nothing but the datacenter config, so the name it uses is the one in the
metadata of that config, as in the test, where the config named "test" gets
"test-snow-credentials". -/
def SetSnowDatacenterIndentityRefDefault (s : SnowDatacenterConfig) : SnowDatacenterConfig :=
  if s.IdentityRef = Ref.empty then
    { s with
      IdentityRef := { Kind := "Secret", Name := s.Name ++ "-snow-credentials", Namespace := "" } }
  else s

/-- The config of the test case "identity ref empty". -/
def datacenterWithoutIdentity : SnowDatacenterConfig :=
  { Name := "test", Namespace := "", Annotations := [], IdentityRef := Ref.empty }

/-- The config of the test case "identity ref exists". -/
def datacenterWithIdentity : SnowDatacenterConfig :=
  { Name := "", Namespace := "", Annotations := [],
    IdentityRef := { Kind := "Secret", Name := "creds-1", Namespace := "" } }

/-! ## Reference resolution -/

/-- Modelled from the spec: a provider under resolution, given by the Kind of
its datacenter config, the Kind of its machine configs and the provider name
used in the default credentials name; the Kind constants are declared outside
the embedded sources. -/
structure Provider where
  Name : String
  DatacenterKind : String
  MachineConfigKind : String
deriving DecidableEq, Repr

/-- The Snow provider, with the Kind names of `anywherev1.SnowDatacenterKind` and
`anywherev1.SnowMachineConfigKind`. -/
def snowProvider : Provider :=
  { Name := "snow", DatacenterKind := "SnowDatacenterConfig",
    MachineConfigKind := "SnowMachineConfig" }

/-- Modelled from the spec: the credentials secret, an "opaque keyed blob (e.g.
access credentials, CA bundle) resolved via an IdentityRef". -/
structure Secret where
  Name : String
  Namespace : String
  SecretType : String
  Data : List (String × String)
deriving DecidableEq, Repr

/-- Modelled from the spec: the object-fetch capability
`ObjectGetter.Get(kind, name, namespace) -> (object, error)`, one field for each
sort of object that is fetched. Datacenter and machine configs of any provider
are represented by the Snow types, the only ones whose fields the spec lists. -/
structure ObjectGetter where
  GetDatacenter : String → String → String → Except String SnowDatacenterConfig
  GetMachineConfig : String → String → String → Except String SnowMachineConfig
  GetSecret : String → String → Except String Secret

/-- One request to the object getter: kind, name, namespace. -/
structure Fetch where
  Kind : String
  Name : String
  Namespace : String
deriving DecidableEq, Repr

/-- Modelled from the spec: `ConfigAggregate`, which "owns mappings:
MachineConfigs: name -> MachineConfig, exactly one resolved DatacenterConfig (or
absent if the descriptor's datacenter Kind does not match the requested
provider), and an optional resolved CredentialsSecret", next to the descriptor
it was resolved from. -/
structure ConfigAggregate where
  Cluster : Cluster
  Datacenter : Option SnowDatacenterConfig
  MachineConfigs : List (String × SnowMachineConfig)
  CredentialsSecret : Option Secret
deriving DecidableEq, Repr

/-- What a resolution leaves behind: the aggregate or the error, and the
requests made to the object getter in their order. -/
structure Resolution where
  result : Except String ConfigAggregate
  fetches : List Fetch

/-- Keeps the first Ref of every name ("deduplicated by name"). -/
def dedupByName : List Ref → List Ref
  | [] => []
  | r :: rs => r :: (dedupByName rs).filter (fun x => decide (x.Name ≠ r.Name))

/-- Modelled from the spec: the machine-group Refs to resolve for a provider,
"the control-plane group Ref, the etcd group Ref if present, and each
worker-group Ref whose Kind matches, deduplicated by name". -/
def machineRefsToResolve (provider : Provider) (descriptor : Cluster) : List Ref :=
  dedupByName
    (descriptor.ControlPlaneMachineGroupRef ::
      (descriptor.ExternalEtcdMachineGroupRef.toList ++
        descriptor.WorkerNodeGroupMachineGroupRefs.filter
          (fun r => decide (r.Kind = provider.MachineConfigKind))))

/-- Fetches the machine configs of the given Refs one after the other and
stops at the first failure: "a fetch failure on a mandatory reference is a hard
failure returned immediately". -/
def fetchMachineConfigs (getter : ObjectGetter) (kind ns : String) :
    List Ref → Except String (List (String × SnowMachineConfig)) × List Fetch
  | [] => (.ok [], [])
  | r :: rs =>
    match getter.GetMachineConfig kind r.Name ns with
    | .error e => (.error e, [{ Kind := kind, Name := r.Name, Namespace := ns }])
    | .ok m =>
      match fetchMachineConfigs getter kind ns rs with
      | (.error e, fetches) =>
        (.error e, { Kind := kind, Name := r.Name, Namespace := ns } :: fetches)
      | (.ok configs, fetches) =>
        (.ok ((r.Name, m) :: configs),
          { Kind := kind, Name := r.Name, Namespace := ns } :: fetches)

/-- Modelled from the spec: the identity by which the credentials secret is
resolved: the `IdentityRef` of the datacenter config, or, when that is empty,
the synthesized default "(Kind: Secret, Name:
<cluster-name>-<provider>-credentials)". -/
def identityToResolve (provider : Provider) (descriptor : Cluster)
    (datacenter : SnowDatacenterConfig) : Ref :=
  if datacenter.IdentityRef = Ref.empty then
    { Kind := "Secret",
      Name := descriptor.Name ++ "-" ++ provider.Name ++ "-credentials", Namespace := "" }
  else datacenter.IdentityRef

/-- Modelled from the spec: `Resolve(ctx, descriptor, objectGetter) ->
(ConfigAggregate, error)` of section 4.1, the function behind
`DefaultConfigClientBuilder.Build`, of which only a test is part of the embedded
sources. When the Kind of the descriptor's datacenter Ref is not the provider's,
the datacenter field is omitted and, as "it is nil and no error is returned",
nothing is fetched for the provider. Otherwise the datacenter config, the
machine configs of `machineRefsToResolve` and the credentials secret are
fetched in this order, in the namespace of the descriptor as in the test; the
first failure aborts the resolution and no partial aggregate is returned. The
aggregate holds the datacenter config as it was fetched; the synthesized default
identity serves to resolve the secret. -/
def Resolve (provider : Provider) (getter : ObjectGetter) (descriptor : Cluster) :
    Resolution :=
  if descriptor.DatacenterRef.Kind ≠ provider.DatacenterKind then
    { result := .ok { Cluster := descriptor, Datacenter := none, MachineConfigs := [],
                      CredentialsSecret := none }
      fetches := [] }
  else
    let datacenterFetch : Fetch :=
      { Kind := provider.DatacenterKind, Name := descriptor.DatacenterRef.Name,
        Namespace := descriptor.Namespace }
    match getter.GetDatacenter provider.DatacenterKind descriptor.DatacenterRef.Name
        descriptor.Namespace with
    | .error e => { result := .error e, fetches := [datacenterFetch] }
    | .ok datacenter =>
      match fetchMachineConfigs getter provider.MachineConfigKind descriptor.Namespace
          (machineRefsToResolve provider descriptor) with
      | (.error e, fetches) => { result := .error e, fetches := datacenterFetch :: fetches }
      | (.ok configs, fetches) =>
        let identity := identityToResolve provider descriptor datacenter
        let secretFetch : Fetch :=
          { Kind := identity.Kind, Name := identity.Name, Namespace := descriptor.Namespace }
        match getter.GetSecret identity.Name descriptor.Namespace with
        | .error e =>
          { result := .error e, fetches := datacenterFetch :: (fetches ++ [secretFetch]) }
        | .ok secret =>
          { result := .ok { Cluster := descriptor, Datacenter := some datacenter,
                            MachineConfigs := configs, CredentialsSecret := some secret }
            fetches := datacenterFetch :: (fetches ++ [secretFetch]) }

/-- The descriptor of the test `TestDefaultConfigClientBuilderSnowCluster`. -/
def snowClusterDescriptor : Cluster :=
  { Name := "my-cluster", Namespace := "default"
    DatacenterRef := { Kind := "SnowDatacenterConfig", Name := "datacenter", Namespace := "" }
    ControlPlaneMachineGroupRef :=
      { Kind := "SnowMachineConfig", Name := "machine-1", Namespace := "" }
    ExternalEtcdMachineGroupRef := none
    WorkerNodeGroupMachineGroupRefs :=
      [{ Kind := "SnowMachineConfig", Name := "machine-2", Namespace := "" },
       { Kind := "VSphereMachineConfig", Name := "machine-3", Namespace := "" }]
    ManagementClusterName := "" }

/-- The datacenter config the test's object store holds. -/
def snowTestDatacenter : SnowDatacenterConfig :=
  { Name := "datacenter", Namespace := "default", Annotations := [],
    IdentityRef := { Kind := "Secret", Name := "snow-secret", Namespace := "" } }

/-- The secret the test's object store holds. -/
def snowTestSecret : Secret :=
  { Name := "snow-secret", Namespace := "default", SecretType := "Opaque",
    Data := [("credentials", "creds"), ("ca-bundle", "certs")] }

/-- The object store of the test: it knows the datacenter, the two Snow machine
configs and the secret, and nothing else. -/
def snowTestGetter : ObjectGetter :=
  { GetDatacenter := fun _ name ns =>
      if name = "datacenter" ∧ ns = "default" then .ok snowTestDatacenter
      else .error "not found"
    GetMachineConfig := fun _ name ns =>
      if (name = "machine-1" ∨ name = "machine-2") ∧ ns = "default" then
        .ok { machineNamed name with Namespace := "default" }
      else .error "not found"
    GetSecret := fun name ns =>
      if name = "snow-secret" ∧ ns = "default" then .ok snowTestSecret
      else .error "not found" }

/-- A provider other than the one of the test descriptor. -/
def dockerProvider : Provider :=
  { Name := "docker", DatacenterKind := "DockerDatacenterConfig",
    MachineConfigKind := "DockerMachineConfig" }

/-! ## Installing the package controller and awaiting its activation -/

/-- Modelled from the spec: the settings of a `PackageControllerClient`, as the
test passes them to `NewPackageControllerClient` and its options; the Go type is
declared outside the embedded sources. Durations are counted in milliseconds;
an `activeBundleTimeout` of 0 means that no timeout was configured. -/
structure PackageControllerClient where
  clusterName : String
  kubeConfig : String
  uri : String
  chartName : String
  chartVersion : String
  eksaAccessKeyId : String
  eksaSecretAccessKey : String
  eksaRegion : String
  httpProxy : String
  httpsProxy : String
  noProxy : List String
  managementClusterName : String
  activeBundleTimeout : Nat
deriving DecidableEq, Repr

/-- The arguments of one `ChartInstaller.InstallChart` call. -/
structure ChartRequest where
  chart : String
  ociRef : String
  version : String
  kubeconfig : String
  targetNamespace : String
  values : List String
deriving DecidableEq, Repr

/-- What one `GetObject` poll of the PackageBundleController answers: the error
it returns, the `ActiveBundle` it reads and the time the call takes. -/
structure PollAnswer where
  err : Option String
  activeBundle : String
  duration : Nat
deriving DecidableEq, Repr

/-- A poll shows the controller active when it returns no error and a non-empty
`ActiveBundle`; a poll error counts as "not yet ready". -/
def PollAnswer.ready (a : PollAnswer) : Bool :=
  a.err.isNone && decide (a.activeBundle ≠ "")

/-- The collaborators of the install workflow and the constants that the spec
names without giving their value: the registry derived from the OCI reference
(`GetRegistry`), the rendering of the credentials-secret manifest from access-key
id, secret and region, the default region, the default timeout and the fixed
poll interval, both positive. `GetObject n` is the answer to poll number `n`,
counted from 0. -/
structure InstallEnv where
  GetRegistry : String → String
  renderSecretManifest : String → String → String → String
  defaultRegion : String
  defaultActiveBundleTimeout : ℕ+
  pollInterval : ℕ+
  InstallChart : ChartRequest → Option String
  ExecuteFromYaml : String → List String → Option String
  ExecuteCommand : List String → Option String
  GetObject : Nat → PollAnswer

/-- The errors `InstallController` returns. -/
inductive InstallError where
  | ChartInstall (cause : String)
  | DeadlineExceeded
deriving DecidableEq, Repr

/-- One collaborator call of the install workflow, with the error it returned;
a poll is recorded with its number. -/
inductive InstallCall where
  | InstallChart (request : ChartRequest) (ret : Option String)
  | ExecuteFromYaml (manifest : String) (params : List String) (ret : Option String)
  | ExecuteCommand (params : List String) (ret : Option String)
  | GetObject (attempt : Nat)
deriving DecidableEq, Repr

/-- Recognises the secret apply, the job trigger and the polls. -/
def InstallCall.isAfterChart : InstallCall → Bool
  | .InstallChart _ _ => false
  | _ => true

/-- The polls among the calls, by their number. -/
def pollsOf (calls : List InstallCall) : List Nat :=
  calls.filterMap (fun c => match c with
    | .GetObject n => some n
    | _ => none)

/-- Modelled from the spec: the value set of the chart install, "always
(sourceRegistry, clusterName); additionally (proxy.HTTP_PROXY,
proxy.HTTPS_PROXY, proxy.NO_PROXY) only when both HTTP and HTTPS proxy values
are non-empty (the NO_PROXY list is comma-escaped when multiple entries
exist)"; the test joins the NO_PROXY entries with a backslash and a comma. -/
def chartValues (pc : PackageControllerClient) (env : InstallEnv) : List String :=
  let values := ["sourceRegistry=" ++ env.GetRegistry pc.uri, "clusterName=" ++ pc.clusterName]
  if pc.httpProxy ≠ "" ∧ pc.httpsProxy ≠ "" then
    values ++ ["proxy.HTTP_PROXY=" ++ pc.httpProxy, "proxy.HTTPS_PROXY=" ++ pc.httpsProxy,
      "proxy.NO_PROXY=" ++ String.intercalate "\\," pc.noProxy]
  else values

/-- The chart install request, with the arguments the test expects. -/
def chartRequest (pc : PackageControllerClient) (env : InstallEnv) : ChartRequest :=
  { chart := pc.chartName, ociRef := "oci://" ++ pc.uri, version := pc.chartVersion,
    kubeconfig := pc.kubeConfig, targetNamespace := "eksa-packages",
    values := chartValues pc env }

/-- The timeout of the poll step: "a configurable timeout (default value when
unset)". -/
def effectiveTimeout (pc : PackageControllerClient) (env : InstallEnv) : Nat :=
  if pc.activeBundleTimeout = 0 then env.defaultActiveBundleTimeout
  else pc.activeBundleTimeout

/-- What the poll step leaves behind: the error, if any, and the numbers of the
polls it made. -/
structure PollOutcome where
  err : Option InstallError
  polls : List Nat
deriving DecidableEq, Repr

/-- Modelled from the spec: the poll-until-ready step, "sleep-then-retry at a
fixed short cadence until success or deadline"; the deadline "is computed once
at call start and checked before each attempt". `now` is the time elapsed since
the step began, `attempt` the number of the next poll. A poll error is "not yet
ready"; the loop stops "successfully the moment the field becomes non-empty"
and "with a deadline-exceeded error" once the deadline has passed. -/
def pollUntilReady (env : InstallEnv) (deadline : Nat) (attempt now : Nat) : PollOutcome :=
  if _ : deadline ≤ now then { err := some .DeadlineExceeded, polls := [] }
  else
    if (env.GetObject attempt).ready then { err := none, polls := [attempt] }
    else
      let rest := pollUntilReady env deadline (attempt + 1)
        (now + (env.GetObject attempt).duration + env.pollInterval)
      { err := rest.err, polls := attempt :: rest.polls }
termination_by deadline - now
decreasing_by
  have := env.pollInterval.pos
  omega

/-- What one invocation of `InstallController` leaves behind. -/
structure InstallOutcome where
  err : Option InstallError
  calls : List InstallCall
deriving DecidableEq, Repr

/-- Modelled from the spec: `PackageControllerClient.InstallController`, the
workflow of section 4.4, of which only the test is part of the embedded sources.
Step 1, the chart install, is fatal: "Failure here aborts the whole workflow
immediately; no further steps run". Steps 2 and 3, applying the credentials
secret and creating the job from the cron job, are best-effort: "A failure is
logged and swallowed". Step 4 polls until the active bundle is set or the
deadline has passed. The command lines are those the test expects. -/
def InstallController (pc : PackageControllerClient) (env : InstallEnv) : InstallOutcome :=
  match env.InstallChart (chartRequest pc env) with
  | some cause =>
    { err := some (.ChartInstall cause)
      calls := [.InstallChart (chartRequest pc env) (some cause)] }
  | none =>
    let region := if pc.eksaRegion = "" then env.defaultRegion else pc.eksaRegion
    let manifest := env.renderSecretManifest pc.eksaAccessKeyId pc.eksaSecretAccessKey region
    let applyParams := ["create", "-f", "-", "--kubeconfig", pc.kubeConfig]
    let jobParams := ["create", "job", "eksa-auth-refresher", "--from=cronjob/cron-ecr-renew",
      "--kubeconfig", pc.kubeConfig, "--namespace", "eksa-packages"]
    let poll := pollUntilReady env (effectiveTimeout pc env) 0 0
    { err := poll.err
      calls :=
        [.InstallChart (chartRequest pc env) none,
         .ExecuteFromYaml manifest applyParams (env.ExecuteFromYaml manifest applyParams),
         .ExecuteCommand jobParams (env.ExecuteCommand jobParams)] ++
        poll.polls.map InstallCall.GetObject }

/-- The time, counted from the start of the poll step, at which poll number `n`
begins when none of the earlier polls found the controller active. -/
def pollStart (env : InstallEnv) : Nat → Nat
  | 0 => 0
  | n + 1 => pollStart env n + (env.GetObject n).duration + env.pollInterval

/-- The client of the test: cluster "billy", no proxy, no timeout configured. -/
def testClient : PackageControllerClient :=
  { clusterName := "billy", kubeConfig := "kubeconfig.kubeconfig",
    uri := "test/registry_name", chartName := "test_controller", chartVersion := "v1.0.0",
    eksaAccessKeyId := "test-access-id", eksaSecretAccessKey := "test-access-key",
    eksaRegion := "test-region", httpProxy := "", httpsProxy := "", noProxy := [],
    managementClusterName := "mgmt", activeBundleTimeout := 0 }

/-- The client of `TestInstallControllerWithProxy`. -/
def testClientWithProxy : PackageControllerClient :=
  { testClient with httpProxy := "1.1.1.1", httpsProxy := "1.1.1.1", noProxy := ["1.1.1.1/24"] }

/-- The client of `TestInstallControllerActiveBundleTimesOut`: a timeout of one
millisecond. -/
def testClientShortTimeout : PackageControllerClient :=
  { testClient with activeBundleTimeout := 1 }

/-- The poll of `getPBCSuccess`: the bundle "test-bundle" at once. -/
def pollSuccess : Nat → PollAnswer :=
  fun _ => { err := none, activeBundle := "test-bundle", duration := 0 }

/-- An environment in which every step succeeds: a default timeout of three
minutes, a poll interval of one second. -/
def installEnvSuccess : InstallEnv :=
  { GetRegistry := fun _ => "test"
    renderSecretManifest := fun id key region => id ++ ":" ++ key ++ ":" ++ region
    defaultRegion := "us-west-2"
    defaultActiveBundleTimeout := ⟨180000, by decide⟩
    pollInterval := ⟨1000, by decide⟩
    InstallChart := fun _ => none
    ExecuteFromYaml := fun _ _ => none
    ExecuteCommand := fun _ => none
    GetObject := pollSuccess }

/-- The environment of `TestInstallControllerFail`: the chart install fails. -/
def installEnvChartFails : InstallEnv :=
  { installEnvSuccess with InstallChart := fun _ => some "login failed" }

/-- The environment in which both best-effort steps fail, as in
`TestInstallControllerSuccessWhenApplySecretFails` and
`TestInstallControllerSuccessWhenCronJobFails`. -/
def installEnvBestEffortFails : InstallEnv :=
  { installEnvSuccess with
    ExecuteFromYaml := fun _ _ => some "error applying secrets"
    ExecuteCommand := fun _ => some "error creating cron job" }

/-- The environment of `TestInstallControllerActiveBundleWaitLoops`: two polls
with an empty bundle, then "test-bundle". -/
def installEnvLoops : InstallEnv :=
  { installEnvSuccess with
    GetObject := fun n =>
      if n < 2 then { err := none, activeBundle := "", duration := 0 }
      else { err := none, activeBundle := "test-bundle", duration := 0 } }

/-- The environment of `TestInstallControllerActiveBundleTimesOut`: every poll
takes a second and fails. -/
def installEnvDelay : InstallEnv :=
  { installEnvSuccess with
    GetObject := fun _ => { err := some "test error", activeBundle := "", duration := 1000 } }

/-! ## Redacting credentials from a command line -/

/-- The constant `redactMask`. -/
def redactMask : String := "*****"

/-- The replacement loop of Go's `strings.ReplaceAll` for a non-empty `old`, on
the characters that remain to be read: at an occurrence of `old` the
replacement is written and the occurrence skipped, otherwise one character is
copied. The first argument bounds the number of steps by the number of
characters left. -/
def replaceAllAux (old new : List Char) : Nat → List Char → List Char
  | _, [] => []
  | 0, c :: cs => c :: cs
  | fuel + 1, c :: cs =>
    if old.isPrefixOf (c :: cs) then
      new ++ replaceAllAux old new fuel ((c :: cs).drop old.length)
    else c :: replaceAllAux old new fuel cs

/-- Go's `strings.ReplaceAll` on the characters of a string: every
non-overlapping occurrence of `old`, found from left to right, is replaced by
`new`; when `old` is empty, `new` is inserted before every character and at the
end. -/
def replaceAllChars (s old new : List Char) : List Char :=
  match old with
  | [] => new ++ s.flatMap (fun c => c :: new)
  | _ :: _ => replaceAllAux old new s.length s

/-- Go's `strings.ReplaceAll(s, old, new)`, a standard-library function that
`RedactCreds` calls; strings are taken as sequences of characters. -/
def ReplaceAll (s old new : String) : String :=
  ⟨replaceAllChars s.data old.data new.data⟩

/-- The function `RedactCreds`. The list `redactedEnvKeys` is a package variable
whose entries are constants declared in other packages; it is passed in. The
env map is a string-keyed Go map. -/
def RedactCreds (redactedEnvKeys : List String) (cmd : String)
    (envMap : List (String × String)) : String :=
  let redactedEnvs := redactedEnvKeys.filterMap (fun redactedEnvKey => mapGet envMap redactedEnvKey)
  redactedEnvs.foldl (fun cmd redactedEnv => ReplaceAll cmd redactedEnv redactMask) cmd

/-- A list of redacted keys for the scenarios below. -/
def sampleRedactedKeys : List String :=
  ["EKSA_VSPHERE_USERNAME", "EKSA_VSPHERE_PASSWORD", "GITHUB_TOKEN"]

/-- An env map holding two of the redacted keys, the value of one being part of
the value of the other, and one key that is not redacted. -/
def sampleEnvMap : List (String × String) :=
  [("EKSA_VSPHERE_PASSWORD", "secret"), ("HOME", "/root"), ("GITHUB_TOKEN", "topsecret")]

/-- A command line that mentions both values. -/
def sampleCommand : String := "govc -p secret login --token=topsecret --dir /root"

/-- An environment in which fetching the object fails with an error other than
not-found. -/
def envGetFails : Env :=
  { envAllPass with Get := fun _ => .error { msg := "connection refused", notFound := false } }

/-- An env map in which a redacted key is present with the empty string as its
value. -/
def emptyValueEnvMap : List (String × String) :=
  [("HOME", "/root"), ("GITHUB_TOKEN", "")]

/-! ## Theorems -/

mutual
theorem GoError.beq_eq_true_iff : ∀ a b : GoError, GoError.beq a b = true ↔ a = b
  | .ext a, .ext b => by simp [GoError.beq]
  | .aggregate as, .aggregate bs => by
      simp [GoError.beq, GoError.beqList_eq_true_iff as bs]
  | .ext _, .aggregate _ => by simp [GoError.beq]
  | .aggregate _, .ext _ => by simp [GoError.beq]
theorem GoError.beqList_eq_true_iff :
    ∀ as bs : List GoError, GoError.beqList as bs = true ↔ as = bs
  | [], [] => by simp [GoError.beqList]
  | a :: as, b :: bs => by
      simp [GoError.beqList, GoError.beq_eq_true_iff a b, GoError.beqList_eq_true_iff as bs]
  | [], _ :: _ => by simp [GoError.beqList]
  | _ :: _, [] => by simp [GoError.beqList]
end

theorem GoError.beq_self (a : GoError) : GoError.beq a a = true :=
  (GoError.beq_eq_true_iff a a).mpr rfl

theorem GoError.contains_self (a : GoError) : GoError.contains a a = true := by
  cases a <;> simp [GoError.contains, GoError.beq_self]

/-- An aggregate contains whatever one of its members contains. -/
theorem GoError.contains_aggregate_of_mem (t e : GoError) (errs : List GoError)
    (hmem : e ∈ errs) (h : GoError.contains t e = true) :
    GoError.contains t (.aggregate errs) = true := by
  have key : GoError.containsAny t errs = true := by
    induction errs with
    | nil => cases hmem
    | cons x xs ih =>
      rcases List.mem_cons.mp hmem with rfl | hx
      · simp [GoError.containsAny, h]
      · simp [GoError.containsAny, ih hx]
  simp [GoError.contains, key]

/-- The calls of `reconcile` never include a patch, a fetch or a helper
creation. -/
theorem reconcile_calls_not_patch (env : Env) (obj : SnowMachineConfig) :
    ∀ c ∈ (reconcile env obj).calls, c.isPatch = false := by
  intro c hc
  unfold reconcile at hc
  split at hc
  · simp at hc; subst hc; rfl
  · split at hc
    · simp at hc; rcases hc with rfl | rfl <;> rfl
    · split at hc
      · simp at hc; rcases hc with rfl | rfl | rfl <;> rfl
      · split at hc
        · simp at hc; rcases hc with rfl | rfl | rfl | rfl <;> rfl
        · simp at hc; rcases hc with rfl | rfl | rfl | rfl <;> rfl

/-- For an object marked for deletion the body of `Reconcile` does nothing. -/
theorem reconcileBody_of_deleting (env : Env) (obj : SnowMachineConfig)
    (hdel : DeletionTimestampIsZero obj.DeletionTimestamp = false) :
    reconcileBody env obj =
      { obj := obj, result := Result.empty, err := none, calls := [] } := by
  simp [reconcileBody, hdel]

/-- For an object not marked for deletion the body of `Reconcile` is
`reconcile`, with a returned error wrapped into an aggregate. -/
theorem reconcileBody_of_live (env : Env) (obj : SnowMachineConfig)
    (hlive : DeletionTimestampIsZero obj.DeletionTimestamp = true) :
    (reconcileBody env obj).obj = (reconcile env obj).obj ∧
    (reconcileBody env obj).result = (reconcile env obj).result ∧
    (reconcileBody env obj).calls = (reconcile env obj).calls ∧
    (reconcileBody env obj).err =
      (reconcile env obj).err.map (fun e => GoError.aggregate [e]) := by
  unfold reconcileBody
  simp only [hlive, Bool.not_true, Bool.false_eq_true, if_false]
  cases h : (reconcile env obj).err <;> simp [h, NewAggregate]

theorem reconcileBody_calls_not_patch (env : Env) (obj : SnowMachineConfig) :
    ∀ c ∈ (reconcileBody env obj).calls, c.isPatch = false := by
  intro c hc
  cases hdel : DeletionTimestampIsZero obj.DeletionTimestamp
  · rw [reconcileBody_of_deleting env obj hdel] at hc
    cases hc
  · rw [(reconcileBody_of_live env obj hdel).2.2.1] at hc
    exact reconcile_calls_not_patch env obj c hc

/-- The deferred function makes exactly one call, a patch of the object it is
handed. -/
theorem deferredPatch_calls (env : Env) (base obj : SnowMachineConfig)
    (reterr : Option GoError) :
    (deferredPatch env base obj reterr).2 =
      [Call.Patch obj (patchOpts reterr) (env.Patch base obj (patchOpts reterr))] := by
  unfold deferredPatch
  split <;> simp_all

/-- The shape of `Reconcile` once the object is fetched and the helper exists. -/
theorem Reconcile_of_fetched (env : Env) (req : NamespacedName) (obj : SnowMachineConfig)
    (hget : env.Get req = .ok obj) (hhelper : env.NewHelper obj = none) :
    Reconcile env req =
      { result := (reconcileBody env obj).result
        reterr := (deferredPatch env obj (reconcileBody env obj).obj (reconcileBody env obj).err).1
        obj := some (reconcileBody env obj).obj
        calls := [.Get req none, .NewHelper obj none] ++ (reconcileBody env obj).calls ++
          (deferredPatch env obj (reconcileBody env obj).obj (reconcileBody env obj).err).2 } := by
  unfold Reconcile
  simp [hget, hhelper]

/-- C1: whenever the object is fetched and the patch helper is created,
`Reconcile` calls `Patch` exactly once, as its last collaborator call, whichever
branch (deletion, client-build failure, validator failure, success) is taken. -/
theorem Reconcile_patches_exactly_once (env : Env) (req : NamespacedName)
    (obj : SnowMachineConfig)
    (hget : env.Get req = .ok obj) (hhelper : env.NewHelper obj = none) :
    (Reconcile env req).calls.countP Call.isPatch = 1 ∧
    ∃ before o opts ret,
      (Reconcile env req).calls = before ++ [Call.Patch o opts ret] ∧
      ∀ c ∈ before, c.isPatch = false := by
  rw [Reconcile_of_fetched env req obj hget hhelper]
  have hbody := reconcileBody_calls_not_patch env obj
  have hpre : ∀ c ∈ [Call.Get req none, Call.NewHelper obj none] ++ (reconcileBody env obj).calls,
      c.isPatch = false := by
    intro c hc
    rcases List.mem_append.mp hc with h | h
    · simp at h; rcases h with rfl | rfl <;> rfl
    · exact hbody c h
  rw [deferredPatch_calls]
  refine ⟨?_, _, _, _, _, rfl, hpre⟩
  rw [List.countP_append, List.countP_eq_zero.mpr (by simpa using hpre)]
  simp [Call.isPatch]

/-- Witness of C1 on the run in which a validator and the patch both fail. -/
theorem Reconcile_patches_exactly_once_witness :
    (Reconcile envImageAndPatchFail sampleRequest).calls.countP Call.isPatch = 1 ∧
    ∃ before o opts ret,
      (Reconcile envImageAndPatchFail sampleRequest).calls = before ++ [Call.Patch o opts ret] ∧
      ∀ c ∈ before, c.isPatch = false :=
  Reconcile_patches_exactly_once envImageAndPatchFail sampleRequest sampleObject rfl rfl

/-- The validators invoked by `reconcile` form an initial segment of the
pipeline, and after a validator call that returned an error no later validator
is invoked. -/
theorem reconcile_validators_initial_segment (env : Env) (obj : SnowMachineConfig) :
    validatorsInvoked (reconcile env obj).calls <+: validatorPipeline ∧
    ∀ (k : ValidatorId) (o : SnowMachineConfig) (e : CollabError),
      Call.Validate k o (some e) ∈ (reconcile env obj).calls →
      ∀ j : ValidatorId, k.position < j.position →
        j ∉ validatorsInvoked (reconcile env obj).calls := by
  unfold reconcile
  split
  · simp [validatorsInvoked, Call.validatorId, validatorPipeline]
  · split
    · refine ⟨by simp [validatorsInvoked, Call.validatorId, validatorPipeline, List.prefix_iff_eq_take], ?_⟩
      intro k o e hk j hj
      simp at hk
      obtain ⟨rfl, -, -⟩ := hk
      cases j <;> simp_all [validatorsInvoked, Call.validatorId, ValidatorId.position]
    · split
      · refine ⟨by simp [validatorsInvoked, Call.validatorId, validatorPipeline, List.prefix_iff_eq_take], ?_⟩
        intro k o e hk j hj
        simp at hk
        obtain ⟨rfl, -, -⟩ := hk
        cases j <;> simp_all [validatorsInvoked, Call.validatorId, ValidatorId.position]
      · split
        · refine ⟨by simp [validatorsInvoked, Call.validatorId, validatorPipeline], ?_⟩
          intro k o e hk j hj
          simp at hk
          obtain ⟨rfl, -, -⟩ := hk
          cases j <;> simp_all [validatorsInvoked, Call.validatorId, ValidatorId.position]
        · refine ⟨by simp [validatorsInvoked, Call.validatorId, validatorPipeline], ?_⟩
          intro k o e hk
          simp at hk

/-- The calls of `reconcile` once the clients are built, as a function of what
the validators answer: the first validator is always called, each further one
exactly when the one before it returned nil, each on the object handed to
`reconcile` and recorded with its own answer. -/
theorem reconcile_calls_of_built (env : Env) (obj : SnowMachineConfig) (clients : Clients)
    (hbuild : env.BuildSnowAwsClientMap = .ok clients) :
    (reconcile env obj).calls =
      Call.BuildSnowAwsClientMap none ::
      Call.Validate .ValidateMachineDeviceIPs obj
          (env.validator .ValidateMachineDeviceIPs clients obj) ::
        (if (env.validator .ValidateMachineDeviceIPs clients obj).isSome then []
         else
          Call.Validate .ValidateEC2ImageExistsOnDevice obj
              (env.validator .ValidateEC2ImageExistsOnDevice clients obj) ::
            (if (env.validator .ValidateEC2ImageExistsOnDevice clients obj).isSome then []
             else
              [Call.Validate .ValidateEC2SshKeyNameExists obj
                (env.validator .ValidateEC2SshKeyNameExists clients obj)])) := by
  simp only [Env.validator]
  cases h1 : env.ValidateMachineDeviceIPs clients obj with
  | some e1 => simp [reconcile, hbuild, h1]
  | none =>
    cases h2 : env.ValidateEC2ImageExistsOnDevice clients obj with
    | some e2 => simp [reconcile, hbuild, h1, h2]
    | none =>
      cases h3 : env.ValidateEC2SshKeyNameExists clients obj with
      | some e3 => simp [reconcile, hbuild, h1, h2, h3]
      | none => simp [reconcile, hbuild, h1, h2, h3]

/-- When the clients are built, validator k returns an error and every
validator placed before k returns nil, `reconcile` calls exactly the validators
up to k, in order, the call to k being recorded with that error. -/
theorem reconcile_failing_validator_invoked (env : Env) (obj : SnowMachineConfig)
    (clients : Clients) (k : ValidatorId) (e : CollabError)
    (hbuild : env.BuildSnowAwsClientMap = .ok clients)
    (hearlier : ∀ i : ValidatorId, i.position < k.position →
      env.validator i clients obj = none)
    (hfail : env.validator k clients obj = some e) :
    Call.Validate k obj (some e) ∈ (reconcile env obj).calls ∧
    validatorsInvoked (reconcile env obj).calls = validatorPipeline.take k.position := by
  rw [reconcile_calls_of_built env obj clients hbuild]
  cases k with
  | ValidateMachineDeviceIPs =>
    simp [hfail, validatorsInvoked, Call.validatorId, validatorPipeline, ValidatorId.position]
  | ValidateEC2ImageExistsOnDevice =>
    have h1 := hearlier .ValidateMachineDeviceIPs (by decide)
    simp [hfail, h1, validatorsInvoked, Call.validatorId, validatorPipeline,
      ValidatorId.position]
  | ValidateEC2SshKeyNameExists =>
    have h1 := hearlier .ValidateMachineDeviceIPs (by decide)
    have h2 := hearlier .ValidateEC2ImageExistsOnDevice (by decide)
    simp [hfail, h1, h2, validatorsInvoked, Call.validatorId, validatorPipeline,
      ValidatorId.position]

/-- C2: `reconcile` runs the validators in the fixed order
ValidateMachineDeviceIPs, ValidateEC2ImageExistsOnDevice,
ValidateEC2SshKeyNameExists, on the object it was handed and with the clients it
built. After a failed client build no validator runs. After a successful one
the first validator runs and each further one runs exactly when all before it
returned nil: if validator k returns an error and those before it return nil,
exactly the validators up to k run; if all return nil, all three run; and
whenever validator k returns an error, none of the validators placed after k is
invoked. -/
theorem reconcile_validators_ordered_short_circuit (env : Env) (obj : SnowMachineConfig) :
    validatorsInvoked (reconcile env obj).calls <+: validatorPipeline ∧
    (∀ (k : ValidatorId) (o : SnowMachineConfig) (e : CollabError),
      Call.Validate k o (some e) ∈ (reconcile env obj).calls →
      ∀ j : ValidatorId, k.position < j.position →
        j ∉ validatorsInvoked (reconcile env obj).calls) ∧
    (∀ e, env.BuildSnowAwsClientMap = .error e →
      validatorsInvoked (reconcile env obj).calls = []) ∧
    ∀ clients, env.BuildSnowAwsClientMap = .ok clients →
      (∀ (k : ValidatorId) (o : SnowMachineConfig) (r : Option CollabError),
        Call.Validate k o r ∈ (reconcile env obj).calls →
        o = obj ∧ r = env.validator k clients obj) ∧
      (∀ (k : ValidatorId) (e : CollabError),
        env.validator k clients obj = some e →
        (∀ i : ValidatorId, i.position < k.position → env.validator i clients obj = none) →
        validatorsInvoked (reconcile env obj).calls = validatorPipeline.take k.position ∧
        Call.Validate k obj (some e) ∈ (reconcile env obj).calls) ∧
      ((∀ k : ValidatorId, env.validator k clients obj = none) →
        validatorsInvoked (reconcile env obj).calls = validatorPipeline) ∧
      (∀ (k : ValidatorId) (e : CollabError),
        env.validator k clients obj = some e →
        ∀ j : ValidatorId, k.position < j.position →
          j ∉ validatorsInvoked (reconcile env obj).calls) := by
  obtain ⟨hinit, hafter⟩ := reconcile_validators_initial_segment env obj
  refine ⟨hinit, hafter, ?_, ?_⟩
  · intro e hbuild
    simp [reconcile, hbuild, validatorsInvoked, Call.validatorId]
  · intro clients hbuild
    have hcalls := reconcile_calls_of_built env obj clients hbuild
    refine ⟨?_, ?_, ?_, ?_⟩
    · intro k o r hmem
      rw [hcalls] at hmem
      have hform : Call.Validate k o r =
            Call.Validate .ValidateMachineDeviceIPs obj
              (env.validator .ValidateMachineDeviceIPs clients obj) ∨
          Call.Validate k o r =
            Call.Validate .ValidateEC2ImageExistsOnDevice obj
              (env.validator .ValidateEC2ImageExistsOnDevice clients obj) ∨
          Call.Validate k o r =
            Call.Validate .ValidateEC2SshKeyNameExists obj
              (env.validator .ValidateEC2SshKeyNameExists clients obj) := by
        simp only [List.mem_cons, reduceCtorEq, false_or] at hmem
        rcases hmem with h | h
        · exact Or.inl h
        · split at h
          · cases h
          · rcases List.mem_cons.mp h with h | h
            · exact Or.inr (Or.inl h)
            · split at h
              · cases h
              · exact Or.inr (Or.inr (List.mem_singleton.mp h))
      rcases hform with h | h | h <;>
        (injection h with hk ho hr; subst hk ho hr; exact ⟨rfl, rfl⟩)
    · intro k e hfail hearlier
      obtain ⟨hmem, hseq⟩ :=
        reconcile_failing_validator_invoked env obj clients k e hbuild hearlier hfail
      exact ⟨hseq, hmem⟩
    · intro hall
      rw [hcalls]
      simp [hall, validatorsInvoked, Call.validatorId, validatorPipeline]
    · intro k e hfail j hj
      rw [hcalls]
      cases k <;> cases j <;>
        simp [ValidatorId.position] at hj <;>
        cases h1 : env.validator .ValidateMachineDeviceIPs clients obj <;>
        simp_all [validatorsInvoked, Call.validatorId]

/-- Witness of C2: when the image validator fails after the device-IP validator
passed, exactly these two validators run, in this order, and the ssh-key
validator is not invoked. -/
theorem reconcile_validators_ordered_short_circuit_witness :
    validatorsInvoked (reconcile envImageFails sampleObject).calls =
      [.ValidateMachineDeviceIPs, .ValidateEC2ImageExistsOnDevice] ∧
    Call.Validate .ValidateEC2ImageExistsOnDevice sampleObject (some imageError) ∈
      (reconcile envImageFails sampleObject).calls ∧
    ValidatorId.ValidateEC2SshKeyNameExists ∉
      validatorsInvoked (reconcile envImageFails sampleObject).calls :=
  have h := ((reconcile_validators_ordered_short_circuit envImageFails sampleObject).2.2.2
    { devices := ["10.0.0.1"] } rfl).2.1 .ValidateEC2ImageExistsOnDevice imageError rfl
    (fun i hi => by cases i <;> first | rfl | (exact absurd hi (by decide)))
  ⟨h.1, h.2,
    (reconcile_validators_ordered_short_circuit envImageFails sampleObject).2.1
      .ValidateEC2ImageExistsOnDevice sampleObject imageError (by decide)
      .ValidateEC2SshKeyNameExists (by decide)⟩

/-- A failed validator call in the trace of `reconcile` fixes its outcome: the
failure message is the message of that error and the error is returned. -/
theorem reconcile_of_validator_failed (env : Env) (obj : SnowMachineConfig)
    (k : ValidatorId) (o : SnowMachineConfig) (e : CollabError)
    (hfail : Call.Validate k o (some e) ∈ (reconcile env obj).calls) :
    (reconcile env obj).obj = setFailureMessage obj e ∧
    (reconcile env obj).err = some (.ext e) := by
  unfold reconcile at hfail ⊢
  split
  · rename_i h; simp [h] at hfail
  · rename_i hb
    simp only [hb] at hfail
    split
    · rename_i h1; simp [h1] at hfail; simp [hfail]
    · rename_i h1
      simp only [h1] at hfail
      split
      · rename_i h2; simp [h2] at hfail; simp [hfail]
      · rename_i h2
        simp only [h2] at hfail
        split
        · rename_i h3; simp [h3] at hfail; simp [hfail]
        · rename_i h3; simp [h3] at hfail

/-- The value of `reterr` after the deferred function, when the patch succeeds. -/
theorem deferredPatch_reterr_of_patched (env : Env) (base obj : SnowMachineConfig)
    (reterr : Option GoError) (hp : env.Patch base obj (patchOpts reterr) = none) :
    (deferredPatch env base obj reterr).1 = reterr := by
  simp [deferredPatch, hp]

/-- The value of `reterr` after the deferred function, when the patch fails:
the aggregate of the earlier error, if any, and the patch error. -/
theorem deferredPatch_reterr_of_patch_failed (env : Env) (base obj : SnowMachineConfig)
    (reterr : Option GoError) (p : CollabError)
    (hp : env.Patch base obj (patchOpts reterr) = some p) :
    (deferredPatch env base obj reterr).1 =
      some (.aggregate (reterr.toList ++ [.ext p])) := by
  cases reterr <;> simp [deferredPatch, hp, NewAggregate]

/-- The deferred function never loses an error: whatever `reterr` held before
is contained in what it holds afterwards. -/
theorem deferredPatch_keeps_error (env : Env) (base obj : SnowMachineConfig)
    (r : GoError) :
    ∃ r', (deferredPatch env base obj (some r)).1 = some r' ∧
      ∀ t, GoError.contains t r = true → GoError.contains t r' = true := by
  cases hp : env.Patch base obj (patchOpts (some r)) with
  | none =>
    exact ⟨r, deferredPatch_reterr_of_patched env base obj _ hp, fun _ h => h⟩
  | some p =>
    refine ⟨_, deferredPatch_reterr_of_patch_failed env base obj _ p hp, fun t h => ?_⟩
    exact GoError.contains_aggregate_of_mem t r _ (by simp) h

/-- Membership in the trace of `Reconcile`, by the phase the call belongs to. -/
theorem Reconcile_validate_mem (env : Env) (req : NamespacedName)
    (k : ValidatorId) (o : SnowMachineConfig) (ret : Option CollabError)
    (hmem : Call.Validate k o ret ∈ (Reconcile env req).calls) :
    ∃ obj, env.Get req = .ok obj ∧ env.NewHelper obj = none ∧
      DeletionTimestampIsZero obj.DeletionTimestamp = true ∧
      Call.Validate k o ret ∈ (reconcile env obj).calls := by
  cases hget : env.Get req with
  | error err => simp [Reconcile, hget] at hmem
  | ok obj =>
    cases hh : env.NewHelper obj with
    | some err => simp [Reconcile, hget, hh] at hmem
    | none =>
      rw [Reconcile_of_fetched env req obj hget hh, deferredPatch_calls] at hmem
      simp at hmem
      cases hdel : DeletionTimestampIsZero obj.DeletionTimestamp
      · rw [reconcileBody_of_deleting env obj hdel] at hmem
        simp at hmem
      · rw [(reconcileBody_of_live env obj hdel).2.2.1] at hmem
        exact ⟨obj, rfl, hh, hdel, hmem⟩

/-- A validator call of `Reconcile` that returned an error e fixes the outcome:
the object left behind has the message of e as its failure message and the
returned error is non-nil and contains e. -/
theorem Reconcile_of_validator_call_failed (env : Env) (req : NamespacedName)
    (k : ValidatorId) (o : SnowMachineConfig) (e : CollabError)
    (hfail : Call.Validate k o (some e) ∈ (Reconcile env req).calls) :
    (∃ final, (Reconcile env req).obj = some final ∧
      final.Status.FailureMessage = some e.msg) ∧
    ∃ r, (Reconcile env req).reterr = some r ∧ GoError.contains (.ext e) r = true := by
  obtain ⟨obj, hget, hh, hlive, hmem⟩ := Reconcile_validate_mem env req k o _ hfail
  obtain ⟨hobj, herr⟩ := reconcile_of_validator_failed env obj k o e hmem
  obtain ⟨hbo, -, -, hbe⟩ := reconcileBody_of_live env obj hlive
  rw [Reconcile_of_fetched env req obj hget hh]
  refine ⟨⟨_, rfl, ?_⟩, ?_⟩
  · rw [hbo, hobj]; rfl
  · simp only [hbe, herr, Option.map_some']
    obtain ⟨r', hr', hkeep⟩ :=
      deferredPatch_keeps_error env obj (reconcileBody env obj).obj (.aggregate [.ext e])
    refine ⟨r', hr', hkeep _ ?_⟩
    exact GoError.contains_aggregate_of_mem _ (.ext e) _ (by simp) (GoError.contains_self _)

/-- C3: for every object that `Reconcile` fetches and brings before the
validators (patch helper created, no deletion marker, clients built) and every
validator k that returns an error e on it while all validators placed before k
return nil: validator k is invoked, the object that `Reconcile` leaves behind is
the fetched one with `Status.FailureMessage` set to exactly the message of e,
and the error returned by `Reconcile` is non-nil and contains e, whether the
patch succeeds or fails. -/
theorem Reconcile_validator_failure_recorded (env : Env) (req : NamespacedName)
    (obj : SnowMachineConfig) (clients : Clients) (k : ValidatorId) (e : CollabError)
    (hget : env.Get req = .ok obj) (hhelper : env.NewHelper obj = none)
    (hlive : DeletionTimestampIsZero obj.DeletionTimestamp = true)
    (hbuild : env.BuildSnowAwsClientMap = .ok clients)
    (hearlier : ∀ i : ValidatorId, i.position < k.position →
      env.validator i clients obj = none)
    (hfail : env.validator k clients obj = some e) :
    Call.Validate k obj (some e) ∈ (Reconcile env req).calls ∧
    (Reconcile env req).obj =
      some { obj with Status := { obj.Status with FailureMessage := some e.msg } } ∧
    (∃ final, (Reconcile env req).obj = some final ∧
      final.Status.FailureMessage = some e.msg) ∧
    ∃ r, (Reconcile env req).reterr = some r ∧ GoError.contains (.ext e) r = true := by
  obtain ⟨hmem, -⟩ :=
    reconcile_failing_validator_invoked env obj clients k e hbuild hearlier hfail
  have hcall : Call.Validate k obj (some e) ∈ (Reconcile env req).calls := by
    rw [Reconcile_of_fetched env req obj hget hhelper,
      (reconcileBody_of_live env obj hlive).2.2.1]
    exact List.mem_append_left _ (List.mem_append_right _ hmem)
  obtain ⟨hfinal, hret⟩ := Reconcile_of_validator_call_failed env req k obj e hcall
  refine ⟨hcall, ?_, hfinal, hret⟩
  rw [Reconcile_of_fetched env req obj hget hhelper,
    (reconcileBody_of_live env obj hlive).1,
    (reconcile_of_validator_failed env obj k obj e hmem).1]
  rfl

/-- Witness of C3 on the run in which the image validator fails after the
device-IP validator passed, and the patch fails as well. -/
theorem Reconcile_validator_failure_recorded_witness :
    Call.Validate .ValidateEC2ImageExistsOnDevice sampleObject (some imageError) ∈
      (Reconcile envImageAndPatchFail sampleRequest).calls ∧
    (Reconcile envImageAndPatchFail sampleRequest).obj =
      some { sampleObject with
             Status := { sampleObject.Status with
                         FailureMessage := some "image not found on device" } } ∧
    (∃ final, (Reconcile envImageAndPatchFail sampleRequest).obj = some final ∧
      final.Status.FailureMessage = some "image not found on device") ∧
    ∃ r, (Reconcile envImageAndPatchFail sampleRequest).reterr = some r ∧
      GoError.contains (.ext imageError) r = true :=
  Reconcile_validator_failure_recorded envImageAndPatchFail sampleRequest sampleObject
    { devices := ["10.0.0.1"] } .ValidateEC2ImageExistsOnDevice imageError rfl rfl rfl rfl
    (fun i hi => by cases i <;> first | rfl | (exact absurd hi (by decide))) rfl

/-- C4: when the client build and all three validators succeed, `reconcile`
sets `Status.SpecValid` to true, leaves every other field of the object as it
was (a `FailureMessage` of an earlier failed reconcile included) and returns no
error. -/
theorem reconcile_success_sets_only_SpecValid (env : Env) (obj : SnowMachineConfig)
    (clients : Clients)
    (hbuild : env.BuildSnowAwsClientMap = .ok clients)
    (hips : env.ValidateMachineDeviceIPs clients obj = none)
    (himage : env.ValidateEC2ImageExistsOnDevice clients obj = none)
    (hssh : env.ValidateEC2SshKeyNameExists clients obj = none) :
    (reconcile env obj).obj =
      { obj with Status := { obj.Status with SpecValid := true } } ∧
    (reconcile env obj).obj.Status.SpecValid = true ∧
    (reconcile env obj).obj.Status.FailureMessage = obj.Status.FailureMessage ∧
    (reconcile env obj).err = none := by
  simp [reconcile, hbuild, hips, himage, hssh]

/-- Witness of C4: the sample object keeps its stale failure message. -/
theorem reconcile_success_sets_only_SpecValid_witness :
    (reconcile envAllPass sampleObject).obj =
      { sampleObject with Status := { sampleObject.Status with SpecValid := true } } ∧
    (reconcile envAllPass sampleObject).obj.Status.SpecValid = true ∧
    (reconcile envAllPass sampleObject).obj.Status.FailureMessage = some "stale" ∧
    (reconcile envAllPass sampleObject).err = none :=
  reconcile_success_sets_only_SpecValid envAllPass sampleObject { devices := ["10.0.0.1"] }
    rfl rfl rfl rfl

/-- C5 as stated fails: a fetched object with its deletion marker set for which
the patch helper cannot be created is not patched, so it is not true that
`Reconcile` patches every fetched object marked for deletion. -/
theorem Reconcile_deleting_patch_counterexample :
    ¬ ∀ (env : Env) (req : NamespacedName) (obj : SnowMachineConfig),
      env.Get req = .ok obj →
      DeletionTimestampIsZero obj.DeletionTimestamp = false →
      (∀ c ∈ (Reconcile env req).calls, c.isBuild = false ∧ c.isValidate = false) ∧
      (∃ final, (Reconcile env req).obj = some final ∧ final.Status = obj.Status) ∧
      (Reconcile env req).calls.countP Call.isPatch = 1 ∧
      (∀ o opts, Call.Patch o opts none ∈ (Reconcile env req).calls →
        (Reconcile env req).reterr = none) := by
  intro h
  have := (h envDeletingHelperFails sampleRequest deletingObject rfl rfl).2.2.1
  revert this
  decide

/-- C5, amended: for every fetched object whose deletion timestamp is set and
for which the patch helper is created, `Reconcile` calls neither the client
builder nor a validator, leaves the object (its status included) unchanged,
performs the patch as its only further call, and returns no error when that
patch succeeds. -/
theorem Reconcile_deleting_skips_to_patch (env : Env) (req : NamespacedName)
    (obj : SnowMachineConfig)
    (hget : env.Get req = .ok obj) (hhelper : env.NewHelper obj = none)
    (hdel : DeletionTimestampIsZero obj.DeletionTimestamp = false) :
    (∀ c ∈ (Reconcile env req).calls, c.isBuild = false ∧ c.isValidate = false) ∧
    (Reconcile env req).obj = some obj ∧
    (Reconcile env req).calls =
      [.Get req none, .NewHelper obj none,
        .Patch obj [.WithStatusObservedGeneration]
          (env.Patch obj obj [.WithStatusObservedGeneration])] ∧
    (Reconcile env req).calls.countP Call.isPatch = 1 ∧
    (env.Patch obj obj [.WithStatusObservedGeneration] = none →
      (Reconcile env req).reterr = none) := by
  rw [Reconcile_of_fetched env req obj hget hhelper, deferredPatch_calls,
    reconcileBody_of_deleting env obj hdel]
  refine ⟨?_, rfl, rfl, ?_, ?_⟩
  · intro c hc
    simp [patchOpts] at hc
    rcases hc with rfl | rfl | rfl <;> exact ⟨rfl, rfl⟩
  · simp [patchOpts, Call.isPatch]
  · intro hp
    exact deferredPatch_reterr_of_patched env obj obj none hp

/-- Witness of amended C5 on the object marked for deletion. -/
theorem Reconcile_deleting_skips_to_patch_witness :
    (∀ c ∈ (Reconcile envDeleting sampleRequest).calls,
      c.isBuild = false ∧ c.isValidate = false) ∧
    (Reconcile envDeleting sampleRequest).obj = some deletingObject ∧
    (Reconcile envDeleting sampleRequest).calls =
      [.Get sampleRequest none, .NewHelper deletingObject none,
        .Patch deletingObject [.WithStatusObservedGeneration] none] ∧
    (Reconcile envDeleting sampleRequest).calls.countP Call.isPatch = 1 ∧
    (Reconcile envDeleting sampleRequest).reterr = none :=
  have h := Reconcile_deleting_skips_to_patch envDeleting sampleRequest deletingObject
    rfl rfl rfl
  ⟨h.1, h.2.1, h.2.2.1, h.2.2.2.1, h.2.2.2.2 rfl⟩

/-- A patch call in the trace of `Reconcile` is the call of the deferred
function, made on the object and error that the body left behind. -/
theorem Reconcile_patch_mem (env : Env) (req : NamespacedName)
    (o : SnowMachineConfig) (opts : List PatchOption) (ret : Option CollabError)
    (hmem : Call.Patch o opts ret ∈ (Reconcile env req).calls) :
    ∃ obj, env.Get req = .ok obj ∧ env.NewHelper obj = none ∧
      o = (reconcileBody env obj).obj ∧ opts = patchOpts (reconcileBody env obj).err ∧
      env.Patch obj (reconcileBody env obj).obj (patchOpts (reconcileBody env obj).err) = ret := by
  cases hget : env.Get req with
  | error err => simp [Reconcile, hget] at hmem
  | ok obj =>
    cases hh : env.NewHelper obj with
    | some err => simp [Reconcile, hget, hh] at hmem
    | none =>
      rw [Reconcile_of_fetched env req obj hget hh, deferredPatch_calls] at hmem
      simp only [List.mem_append, List.mem_cons, List.mem_singleton, List.not_mem_nil,
        or_false, false_or, reduceCtorEq] at hmem
      rcases hmem with hbody | hlast
      · have := reconcileBody_calls_not_patch env obj _ hbody
        simp [Call.isPatch] at this
      · injection hlast with h1 h2 h3
        exact ⟨obj, rfl, hh, h1, h2, h3.symm⟩

/-- C6: when the patch of `Reconcile` fails with error p, the returned error is
non-nil and contains p, and when the call to `reconcile` had failed with error
e the returned error contains e as well. -/
theorem Reconcile_patch_failure_aggregated (env : Env) (req : NamespacedName)
    (o : SnowMachineConfig) (opts : List PatchOption) (p : CollabError)
    (hpatch : Call.Patch o opts (some p) ∈ (Reconcile env req).calls) :
    ∃ r, (Reconcile env req).reterr = some r ∧
      GoError.contains (.ext p) r = true ∧
      ∀ obj e, env.Get req = .ok obj →
        DeletionTimestampIsZero obj.DeletionTimestamp = true →
        (reconcile env obj).err = some e →
        GoError.contains e r = true := by
  obtain ⟨obj, hget, hh, -, -, hp⟩ := Reconcile_patch_mem env req o opts _ hpatch
  rw [Reconcile_of_fetched env req obj hget hh]
  refine ⟨_, deferredPatch_reterr_of_patch_failed env obj _ _ p hp, ?_, ?_⟩
  · exact GoError.contains_aggregate_of_mem _ (.ext p) _ (by simp) (GoError.contains_self _)
  · intro obj' e hget' hlive herr
    rw [hget] at hget'
    injection hget' with hobj
    subst hobj
    rw [(reconcileBody_of_live env obj hlive).2.2.2, herr]
    refine GoError.contains_aggregate_of_mem e (.aggregate [e]) _ (by simp) ?_
    exact GoError.contains_aggregate_of_mem e e _ (by simp) (GoError.contains_self e)

/-- Witness of C6 on the run in which the image validator and the patch fail:
the returned error holds both errors. -/
theorem Reconcile_patch_failure_aggregated_witness :
    ∃ r, (Reconcile envImageAndPatchFail sampleRequest).reterr = some r ∧
      GoError.contains (.ext patchError) r = true ∧
      GoError.contains (.ext imageError) r = true :=
  have h := Reconcile_patch_failure_aggregated envImageAndPatchFail sampleRequest
    (setFailureMessage sampleObject imageError) [] patchError (by decide)
  h.elim fun r hr => ⟨r, hr.1, hr.2.1, hr.2.2 sampleObject (.ext imageError) rfl rfl rfl⟩

/-- C7 as stated fails: a fetch that ends in a not-found error makes `Reconcile`
return an error. -/
theorem Reconcile_not_found_counterexample :
    ¬ ∀ (env : Env) (req : NamespacedName) (e : CollabError),
      env.Get req = .error e → e.notFound = true →
      (Reconcile env req).reterr = none := by
  intro h
  have := h envNotFound sampleRequest notFoundError rfl rfl
  simp [Reconcile, envNotFound] at this

/-- C7, amended: when fetching the object fails with a not-found error,
`Reconcile` returns that very error to the caller and calls no other
collaborator. -/
theorem Reconcile_not_found_returned (env : Env) (req : NamespacedName) (e : CollabError)
    (hget : env.Get req = .error e) (hnf : e.notFound = true) :
    (Reconcile env req).reterr = some (.ext e) ∧
    (Reconcile env req).result = Result.empty ∧
    (Reconcile env req).calls = [.Get req (some e)] := by
  have _ := hnf
  simp [Reconcile, hget]

/-- Witness of amended C7 on the environment without the object. -/
theorem Reconcile_not_found_returned_witness :
    (Reconcile envNotFound sampleRequest).reterr = some (.ext notFoundError) ∧
    (Reconcile envNotFound sampleRequest).result = Result.empty ∧
    (Reconcile envNotFound sampleRequest).calls = [.Get sampleRequest (some notFoundError)] :=
  Reconcile_not_found_returned envNotFound sampleRequest notFoundError rfl rfl

/-- C8: when a validator fails on an object whose `Status.SpecValid` is already
true, `reconcile` overwrites `Status.FailureMessage` with the message of the
error and changes nothing else: `SpecValid` stays true. -/
theorem reconcile_failure_overwrites_only_FailureMessage (env : Env)
    (obj : SnowMachineConfig) (k : ValidatorId) (o : SnowMachineConfig) (e : CollabError)
    (hvalid : obj.Status.SpecValid = true)
    (hfail : Call.Validate k o (some e) ∈ (reconcile env obj).calls) :
    (reconcile env obj).obj =
      { obj with Status := { obj.Status with FailureMessage := some e.msg } } ∧
    (reconcile env obj).obj.Status.SpecValid = true := by
  obtain ⟨hobj, -⟩ := reconcile_of_validator_failed env obj k o e hfail
  rw [hobj]
  exact ⟨rfl, hvalid⟩

/-- Witness of C8 on the sample object, which is already marked valid. -/
theorem reconcile_failure_overwrites_only_FailureMessage_witness :
    (reconcile envImageFails sampleObject).obj =
      { sampleObject with
        Status := { sampleObject.Status with FailureMessage := some imageError.msg } } ∧
    (reconcile envImageFails sampleObject).obj.Status.SpecValid = true :=
  reconcile_failure_overwrites_only_FailureMessage envImageFails sampleObject
    .ValidateEC2ImageExistsOnDevice sampleObject imageError rfl (by decide)

/-- The trace of `reconcile` starts with the client build, which is its only
client build; all that follows are validator calls. -/
theorem reconcile_calls_build_first (env : Env) (obj : SnowMachineConfig) :
    ∃ ret rest, (reconcile env obj).calls = Call.BuildSnowAwsClientMap ret :: rest ∧
      ∀ c ∈ rest, c.isBuild = false ∧ c.isPatch = false := by
  unfold reconcile
  split
  · exact ⟨_, [], rfl, by simp⟩
  · split
    · refine ⟨_, _, rfl, ?_⟩
      intro c hc; simp at hc; subst hc; exact ⟨rfl, rfl⟩
    · split
      · refine ⟨_, _, rfl, ?_⟩
        intro c hc; simp at hc; rcases hc with rfl | rfl <;> exact ⟨rfl, rfl⟩
      · split
        · refine ⟨_, _, rfl, ?_⟩
          intro c hc; simp at hc; rcases hc with rfl | rfl | rfl <;> exact ⟨rfl, rfl⟩
        · refine ⟨_, _, rfl, ?_⟩
          intro c hc; simp at hc; rcases hc with rfl | rfl | rfl <;> exact ⟨rfl, rfl⟩

/-- The outcome of `reconcile` when the client build fails. -/
theorem reconcile_of_build_failed (env : Env) (obj : SnowMachineConfig) (e : CollabError)
    (hbuild : env.BuildSnowAwsClientMap = .error e) :
    (reconcile env obj).obj = setFailureMessage obj e ∧
    (reconcile env obj).err = some (.ext e) ∧
    (reconcile env obj).calls = [.BuildSnowAwsClientMap (some e)] := by
  simp [reconcile, hbuild]

/-- C9 as stated fails: a fetched object that is not marked for deletion but for
which the patch helper cannot be created sees no client build at all. -/
theorem Reconcile_build_once_counterexample :
    ¬ ∀ (env : Env) (req : NamespacedName) (obj : SnowMachineConfig),
      env.Get req = .ok obj →
      DeletionTimestampIsZero obj.DeletionTimestamp = true →
      (Reconcile env req).calls.countP Call.isBuild = 1 := by
  intro h
  have := h envHelperFails sampleRequest sampleObject rfl rfl
  revert this
  decide

/-- C9, amended: for every fetched object that is not marked for deletion and
for which the patch helper is created, `Reconcile` calls `BuildSnowAwsClientMap`
exactly once and before any validator; when that build fails with error e no
validator is invoked, `Status.FailureMessage` becomes the message of e,
`SpecValid` and all other fields stay as they were, and the error returned
after the patch attempt contains e. -/
theorem Reconcile_builds_clients_once (env : Env) (req : NamespacedName)
    (obj : SnowMachineConfig)
    (hget : env.Get req = .ok obj) (hhelper : env.NewHelper obj = none)
    (hlive : DeletionTimestampIsZero obj.DeletionTimestamp = true) :
    (Reconcile env req).calls.countP Call.isBuild = 1 ∧
    (∃ before ret after,
      (Reconcile env req).calls = before ++ Call.BuildSnowAwsClientMap ret :: after ∧
      ∀ c ∈ before, c.isValidate = false) ∧
    ∀ e, env.BuildSnowAwsClientMap = .error e →
      validatorsInvoked (Reconcile env req).calls = [] ∧
      (Reconcile env req).obj =
        some { obj with Status := { obj.Status with FailureMessage := some e.msg } } ∧
      (∃ final, (Reconcile env req).obj = some final ∧
        final.Status.FailureMessage = some e.msg ∧
        final.Status.SpecValid = obj.Status.SpecValid) ∧
      ∃ r, (Reconcile env req).reterr = some r ∧ GoError.contains (.ext e) r = true := by
  obtain ⟨hbo, -, hbc, hbe⟩ := reconcileBody_of_live env obj hlive
  obtain ⟨ret, rest, hcalls, hrest⟩ := reconcile_calls_build_first env obj
  rw [Reconcile_of_fetched env req obj hget hhelper, deferredPatch_calls, hbc, hcalls]
  simp only [List.cons_append, List.nil_append]
  refine ⟨?_, ⟨[.Get req none, .NewHelper obj none], ret, _, rfl, ?_⟩, ?_⟩
  · have hzero : rest.countP Call.isBuild = 0 :=
      List.countP_eq_zero.mpr (by intro c hc; simp [(hrest c hc).1])
    simp [List.countP_cons, List.countP_append, Call.isBuild, hzero]
  · intro c hc
    simp at hc
    rcases hc with rfl | rfl <;> rfl
  · intro e hbuild
    obtain ⟨hobj, herr, hcalls'⟩ := reconcile_of_build_failed env obj e hbuild
    rw [hcalls'] at hcalls
    injection hcalls with _ hnil
    subst hnil
    refine ⟨by simp [validatorsInvoked, Call.validatorId], ?_, ⟨_, rfl, ?_, ?_⟩, ?_⟩
    · rw [hbo, hobj]; rfl
    · rw [hbo, hobj]; rfl
    · rw [hbo, hobj]; rfl
    · simp only [hbe, herr, Option.map_some']
      obtain ⟨r', hr', hkeep⟩ :=
        deferredPatch_keeps_error env obj (reconcileBody env obj).obj (.aggregate [.ext e])
      refine ⟨r', hr', hkeep _ ?_⟩
      exact GoError.contains_aggregate_of_mem _ (.ext e) _ (by simp) (GoError.contains_self _)

/-- Witness of amended C9 on the environment whose client build fails. -/
theorem Reconcile_builds_clients_once_witness :
    (Reconcile envBuildFails sampleRequest).calls.countP Call.isBuild = 1 ∧
    (∃ before ret after,
      (Reconcile envBuildFails sampleRequest).calls =
        before ++ Call.BuildSnowAwsClientMap ret :: after ∧
      ∀ c ∈ before, c.isValidate = false) ∧
    validatorsInvoked (Reconcile envBuildFails sampleRequest).calls = [] ∧
    (Reconcile envBuildFails sampleRequest).obj =
      some { sampleObject with
             Status := { sampleObject.Status with FailureMessage := some "no credentials" } } ∧
    (∃ final, (Reconcile envBuildFails sampleRequest).obj = some final ∧
      final.Status.FailureMessage = some "no credentials" ∧
      final.Status.SpecValid = true) ∧
    ∃ r, (Reconcile envBuildFails sampleRequest).reterr = some r ∧
      GoError.contains (.ext buildError) r = true :=
  have h := Reconcile_builds_clients_once envBuildFails sampleRequest sampleObject rfl rfl rfl
  ⟨h.1, h.2.1, h.2.2 buildError rfl⟩

/-- Reading back the key that was just written. -/
theorem mapGet_mapSet_self {α : Type} (m : List (String × α)) (k : String) (v : α) :
    mapGet (mapSet m k v) k = some v := by
  induction m with
  | nil => simp [mapSet, mapGet]
  | cons x xs ih =>
    obtain ⟨k', v'⟩ := x
    by_cases h : k' = k
    · simp [mapSet, mapGet, h]
    · simp [mapSet, mapGet, h, ih]

/-- Writing one key leaves every other key as it was. -/
theorem mapGet_mapSet_ne {α : Type} (m : List (String × α)) (k k' : String) (v : α)
    (hne : k' ≠ k) : mapGet (mapSet m k v) k' = mapGet m k' := by
  induction m with
  | nil => simp [mapSet, mapGet, Ne.symm hne]
  | cons x xs ih =>
    obtain ⟨k0, v0⟩ := x
    by_cases h : k0 = k
    · subst h
      simp [mapSet, mapGet, Ne.symm hne]
    · by_cases h' : k0 = k'
      · subst h'
        simp [mapSet, mapGet, h]
      · simp [mapSet, mapGet, h, h', ih]

/-- The management-cluster stamp leaves the annotations under other keys alone. -/
theorem setManagedBy_annotation_ne (cluster : Cluster) (m : SnowMachineConfig) (k : String)
    (hk : k ≠ managedByAnnotation) :
    mapGet (setManagedBy cluster m).Annotations k = mapGet m.Annotations k := by
  unfold setManagedBy
  split
  · rfl
  · simp [SnowMachineConfig.setAnnotation, mapGet_mapSet_ne _ _ _ _ hk]

/-- The annotation under `k'` after stamping a role `k` and the management
cluster: the stamped value at `k`, the old value at any other role key. -/
theorem stamped_annotation_self (cluster : Cluster) (m : SnowMachineConfig) (k v : String)
    (hk : k ≠ managedByAnnotation) :
    mapGet (setManagedBy cluster (m.setAnnotation k v)).Annotations k = some v := by
  rw [setManagedBy_annotation_ne cluster _ k hk]
  simp [SnowMachineConfig.setAnnotation, mapGet_mapSet_self]

theorem stamped_annotation_ne (cluster : Cluster) (m : SnowMachineConfig) (k k' v : String)
    (hk : k' ≠ managedByAnnotation) (hne : k' ≠ k) :
    mapGet (setManagedBy cluster (m.setAnnotation k v)).Annotations k' =
      mapGet m.Annotations k' := by
  rw [setManagedBy_annotation_ne cluster _ k' hk]
  simp [SnowMachineConfig.setAnnotation, mapGet_mapSet_ne _ _ _ _ hne]

/-- Replacing an entry by one that agrees with it on annotation `key` leaves
that annotation as it was on every entry. -/
theorem annotationOf_mapSet_preserved (configs : List (String × SnowMachineConfig))
    (k key : String) (m m' : SnowMachineConfig) (hm : mapGet configs k = some m)
    (hpres : mapGet m'.Annotations key = mapGet m.Annotations key) (name : String) :
    annotationOf (mapSet configs k m') name key = annotationOf configs name key := by
  unfold annotationOf
  by_cases h : name = k
  · subst h
    simp [mapGet_mapSet_self, hm, hpres]
  · rw [mapGet_mapSet_ne _ _ _ _ h]

/-- Replacing an entry leaves the annotations of the entries under other names
as they were. -/
theorem annotationOf_mapSet_ne (configs : List (String × SnowMachineConfig))
    (k key : String) (m' : SnowMachineConfig) (name : String) (hne : name ≠ k) :
    annotationOf (mapSet configs k m') name key = annotationOf configs name key := by
  unfold annotationOf
  rw [mapGet_mapSet_ne _ _ _ _ hne]

/-- The annotation read from the entry that was just written. -/
theorem annotationOf_mapSet_self (configs : List (String × SnowMachineConfig))
    (k key : String) (m' : SnowMachineConfig) :
    annotationOf (mapSet configs k m') k key = some (mapGet m'.Annotations key) := by
  simp [annotationOf, mapGet_mapSet_self]

/-- C10: when the control-plane machine-group Ref, and the external-etcd
machine-group Ref if present, name entries of `SnowMachineConfigs`,
`SetSnowMachineConfigsAnnotations` returns no error; afterwards the
control-plane entry carries control-plane = "true" and the etcd entry carries
etcd = "true"; on every entry other than the control-plane one the
control-plane annotation is as it was before, and on every entry other than the
etcd one the etcd annotation is as it was before. -/
theorem SetSnowMachineConfigsAnnotations_stamps_roles (c : Config)
    (hcp : (mapGet c.SnowMachineConfigs c.Cluster.ControlPlaneMachineGroupRef.Name).isSome)
    (hetcd : ∀ ref, c.Cluster.ExternalEtcdMachineGroupRef = some ref →
      (mapGet c.SnowMachineConfigs ref.Name).isSome) :
    ∃ c', SetSnowMachineConfigsAnnotations c = .ok c' ∧
      annotationOf c'.SnowMachineConfigs c.Cluster.ControlPlaneMachineGroupRef.Name
        controlPlaneAnnotation = some (some "true") ∧
      (∀ ref, c.Cluster.ExternalEtcdMachineGroupRef = some ref →
        annotationOf c'.SnowMachineConfigs ref.Name etcdAnnotation = some (some "true")) ∧
      (∀ name, name ≠ c.Cluster.ControlPlaneMachineGroupRef.Name →
        annotationOf c'.SnowMachineConfigs name controlPlaneAnnotation =
          annotationOf c.SnowMachineConfigs name controlPlaneAnnotation) ∧
      (∀ name, (∀ ref, c.Cluster.ExternalEtcdMachineGroupRef = some ref → name ≠ ref.Name) →
        annotationOf c'.SnowMachineConfigs name etcdAnnotation =
          annotationOf c.SnowMachineConfigs name etcdAnnotation) := by
  have hcm : controlPlaneAnnotation ≠ managedByAnnotation := by decide
  have hem : etcdAnnotation ≠ managedByAnnotation := by decide
  have hce : controlPlaneAnnotation ≠ etcdAnnotation := by decide
  obtain ⟨m, hm⟩ := Option.isSome_iff_exists.mp hcp
  -- the entries after rule 1
  have hcp1 := annotationOf_mapSet_self c.SnowMachineConfigs
    c.Cluster.ControlPlaneMachineGroupRef.Name controlPlaneAnnotation
    (setManagedBy c.Cluster (m.setAnnotation controlPlaneAnnotation "true"))
  rw [stamped_annotation_self _ _ _ _ hcm] at hcp1
  have hetcd1 := annotationOf_mapSet_preserved c.SnowMachineConfigs
    c.Cluster.ControlPlaneMachineGroupRef.Name etcdAnnotation m
    (setManagedBy c.Cluster (m.setAnnotation controlPlaneAnnotation "true")) hm
    (stamped_annotation_ne _ _ _ _ _ hem (Ne.symm hce))
  unfold SetSnowMachineConfigsAnnotations
  simp only [hm]
  cases hr : c.Cluster.ExternalEtcdMachineGroupRef with
  | none =>
    refine ⟨_, rfl, hcp1, ?_, ?_, ?_⟩
    · intro ref h; cases h
    · intro name hne
      exact annotationOf_mapSet_ne _ _ _ _ _ hne
    · intro name _
      exact hetcd1 name
  | some ref =>
    have hsome : (mapGet (mapSet c.SnowMachineConfigs c.Cluster.ControlPlaneMachineGroupRef.Name
        (setManagedBy c.Cluster (m.setAnnotation controlPlaneAnnotation "true")))
        ref.Name).isSome := by
      by_cases h : ref.Name = c.Cluster.ControlPlaneMachineGroupRef.Name
      · rw [h, mapGet_mapSet_self]; rfl
      · rw [mapGet_mapSet_ne _ _ _ _ h]; exact hetcd ref hr
    obtain ⟨m2, hm2⟩ := Option.isSome_iff_exists.mp hsome
    simp only [hm2]
    refine ⟨_, rfl, ?_, ?_, ?_, ?_⟩
    · rw [annotationOf_mapSet_preserved _ _ _ m2 _ hm2
        (stamped_annotation_ne _ _ _ _ _ hcm hce)]
      exact hcp1
    · intro ref' h
      injection h with h
      subst h
      rw [annotationOf_mapSet_self, stamped_annotation_self _ _ _ _ hem]
    · intro name hne
      rw [annotationOf_mapSet_preserved _ _ _ m2 _ hm2
        (stamped_annotation_ne _ _ _ _ _ hcm hce)]
      exact annotationOf_mapSet_ne _ _ _ _ _ hne
    · intro name hne
      rw [annotationOf_mapSet_ne _ _ _ _ _ (hne ref rfl)]
      exact hetcd1 name

/-- Witness of C10 on the test case "workload cluster with external etcd": each
entry carries its own role annotation and not the other one. -/
theorem SetSnowMachineConfigsAnnotations_stamps_roles_witness :
    ∃ c', SetSnowMachineConfigsAnnotations workloadConfig = .ok c' ∧
      annotationOf c'.SnowMachineConfigs "cp-machine" controlPlaneAnnotation =
        some (some "true") ∧
      annotationOf c'.SnowMachineConfigs "etcd-machine" etcdAnnotation =
        some (some "true") ∧
      annotationOf c'.SnowMachineConfigs "etcd-machine" controlPlaneAnnotation = some none ∧
      annotationOf c'.SnowMachineConfigs "cp-machine" etcdAnnotation = some none :=
  have h := SetSnowMachineConfigsAnnotations_stamps_roles workloadConfig (by decide)
    (fun ref href => by
      have : ref = { Kind := "", Name := "etcd-machine", Namespace := "" } :=
        (Option.some.inj href).symm
      subst this
      decide)
  h.elim fun c' hc =>
    ⟨c', hc.1, hc.2.1, hc.2.2.1 _ rfl,
      (hc.2.2.2.1 "etcd-machine" (by decide)).trans (by decide),
      (hc.2.2.2.2 "cp-machine" (fun ref href => by
        have : ref = { Kind := "", Name := "etcd-machine", Namespace := "" } :=
          (Option.some.inj href).symm
        subst this
        decide)).trans (by decide)⟩

/-- The model reproduces the expectation of the test case "workload cluster
with external etcd". -/
theorem SetSnowMachineConfigsAnnotations_workload_test :
    (SetSnowMachineConfigsAnnotations workloadConfig).toOption.map
        (fun c => c.SnowMachineConfigs.map (fun p => (p.1, p.2.Annotations))) =
      some [("cp-machine",
              [("anywhere.eks.amazonaws.com/control-plane", "true"),
               ("anywhere.eks.amazonaws.com/managed-by", "mgmt-cluster")]),
            ("etcd-machine",
              [("anywhere.eks.amazonaws.com/etcd", "true"),
               ("anywhere.eks.amazonaws.com/managed-by", "mgmt-cluster")])] := by
  decide

/-- The model reproduces the expectation of the test case "management
cluster". -/
theorem SetSnowMachineConfigsAnnotations_management_test :
    (SetSnowMachineConfigsAnnotations managementConfig).toOption.map
        (fun c => c.SnowMachineConfigs.map (fun p => (p.1, p.2.Annotations))) =
      some [("cp-machine", [("anywhere.eks.amazonaws.com/control-plane", "true")])] := by
  decide

/-- Writing the value a key already holds changes nothing. -/
theorem mapSet_of_mapGet {α : Type} (m : List (String × α)) (k : String) (v : α)
    (h : mapGet m k = some v) : mapSet m k v = m := by
  induction m with
  | nil => simp [mapGet] at h
  | cons x xs ih =>
    obtain ⟨k', v'⟩ := x
    by_cases hk : k' = k
    · subst hk
      simp [mapGet] at h
      simp [mapSet, h]
    · simp [mapGet, hk] at h
      simp [mapSet, hk, ih h]

/-- The outcome of a successful annotation step, spelled out. -/
theorem SetSnowMachineConfigsAnnotations_ok (c c' : Config)
    (hok : SetSnowMachineConfigsAnnotations c = .ok c') :
    ∃ m, mapGet c.SnowMachineConfigs c.Cluster.ControlPlaneMachineGroupRef.Name = some m ∧
      ((c.Cluster.ExternalEtcdMachineGroupRef = none ∧
        c' = { c with SnowMachineConfigs :=
                (mapSet c.SnowMachineConfigs c.Cluster.ControlPlaneMachineGroupRef.Name
                  (setManagedBy c.Cluster (m.setAnnotation controlPlaneAnnotation "true"))) }) ∨
       ∃ ref m2, c.Cluster.ExternalEtcdMachineGroupRef = some ref ∧
        mapGet (mapSet c.SnowMachineConfigs c.Cluster.ControlPlaneMachineGroupRef.Name
          (setManagedBy c.Cluster (m.setAnnotation controlPlaneAnnotation "true")))
          ref.Name = some m2 ∧
        c' = { c with SnowMachineConfigs :=
                (mapSet (mapSet c.SnowMachineConfigs c.Cluster.ControlPlaneMachineGroupRef.Name
                  (setManagedBy c.Cluster (m.setAnnotation controlPlaneAnnotation "true")))
                  ref.Name (setManagedBy c.Cluster (m2.setAnnotation etcdAnnotation "true"))) }) := by
  unfold SetSnowMachineConfigsAnnotations at hok
  cases hm : mapGet c.SnowMachineConfigs c.Cluster.ControlPlaneMachineGroupRef.Name with
  | none => simp [hm] at hok
  | some m =>
    simp only [hm] at hok
    refine ⟨m, rfl, ?_⟩
    cases hr : c.Cluster.ExternalEtcdMachineGroupRef with
    | none =>
      simp only [hr] at hok
      injection hok with hok
      exact Or.inl ⟨rfl, hok.symm⟩
    | some ref =>
      simp only [hr] at hok
      cases hm2 : mapGet (mapSet c.SnowMachineConfigs
          c.Cluster.ControlPlaneMachineGroupRef.Name
          (setManagedBy c.Cluster (m.setAnnotation controlPlaneAnnotation "true"))) ref.Name with
      | none => simp [hm2] at hok
      | some m2 =>
        simp only [hm2] at hok
        injection hok with hok
        exact Or.inr ⟨ref, m2, rfl, hm2, hok.symm⟩

/-- The management-cluster stamp writes the name of the management cluster, when
there is one. -/
theorem setManagedBy_annotation_self (cluster : Cluster) (m : SnowMachineConfig)
    (hname : cluster.ManagementClusterName ≠ "") :
    mapGet (setManagedBy cluster m).Annotations managedByAnnotation =
      some cluster.ManagementClusterName := by
  simp [setManagedBy, hname, SnowMachineConfig.setAnnotation, mapGet_mapSet_self]

/-- For a management cluster the stamp of rule 3 does nothing. -/
theorem setManagedBy_of_management (cluster : Cluster) (m : SnowMachineConfig)
    (hname : cluster.ManagementClusterName = "") : setManagedBy cluster m = m := by
  simp [setManagedBy, hname]

/-- After a successful annotation step the cluster descriptor is as before, the
control-plane entry carries control-plane = "true", the etcd entry (if any)
carries etcd = "true", and both carry the name of the management cluster when
there is one. -/
theorem SetSnowMachineConfigsAnnotations_ok_entries (c c' : Config)
    (hok : SetSnowMachineConfigsAnnotations c = .ok c') :
    c'.Cluster = c.Cluster ∧
    (∃ e, mapGet c'.SnowMachineConfigs c.Cluster.ControlPlaneMachineGroupRef.Name = some e ∧
      mapGet e.Annotations controlPlaneAnnotation = some "true" ∧
      (c.Cluster.ManagementClusterName ≠ "" →
        mapGet e.Annotations managedByAnnotation = some c.Cluster.ManagementClusterName)) ∧
    ∀ ref, c.Cluster.ExternalEtcdMachineGroupRef = some ref →
      ∃ e, mapGet c'.SnowMachineConfigs ref.Name = some e ∧
        mapGet e.Annotations etcdAnnotation = some "true" ∧
        (c.Cluster.ManagementClusterName ≠ "" →
          mapGet e.Annotations managedByAnnotation = some c.Cluster.ManagementClusterName) := by
  have hcm : controlPlaneAnnotation ≠ managedByAnnotation := by decide
  have hem : etcdAnnotation ≠ managedByAnnotation := by decide
  have hce : controlPlaneAnnotation ≠ etcdAnnotation := by decide
  obtain ⟨m, -, h⟩ := SetSnowMachineConfigsAnnotations_ok c c' hok
  rcases h with ⟨hnone, rfl⟩ | ⟨ref, m2, hsome, hm2, rfl⟩
  · refine ⟨rfl, ⟨_, mapGet_mapSet_self _ _ _, stamped_annotation_self _ _ _ _ hcm,
      fun hn => setManagedBy_annotation_self _ _ hn⟩, ?_⟩
    intro ref h
    rw [hnone] at h
    cases h
  · refine ⟨rfl, ?_, ?_⟩
    · by_cases hsame : c.Cluster.ControlPlaneMachineGroupRef.Name = ref.Name
      · refine ⟨_, by rw [hsame]; exact mapGet_mapSet_self _ _ _, ?_,
          fun hn => setManagedBy_annotation_self _ _ hn⟩
        rw [stamped_annotation_ne _ _ _ _ _ hcm hce]
        rw [← hsame, mapGet_mapSet_self] at hm2
        injection hm2 with hm2
        rw [← hm2]
        exact stamped_annotation_self _ _ _ _ hcm
      · refine ⟨setManagedBy c.Cluster (m.setAnnotation controlPlaneAnnotation "true"), ?_,
          stamped_annotation_self _ _ _ _ hcm,
          fun hn => setManagedBy_annotation_self _ _ hn⟩
        show mapGet (mapSet (mapSet c.SnowMachineConfigs _ _) _ _) _ = _
        rw [mapGet_mapSet_ne _ _ _ _ hsame, mapGet_mapSet_self]
    · intro ref' h
      rw [hsome] at h
      injection h with h
      subst h
      exact ⟨_, mapGet_mapSet_self _ _ _, stamped_annotation_self _ _ _ _ hem,
        fun hn => setManagedBy_annotation_self _ _ hn⟩

/-- C11 as stated fails: on a management cluster a machine config that carried a
managed-by annotation before the annotation step still carries it afterwards. -/
theorem SetSnowMachineConfigsAnnotations_managed_by_counterexample :
    ¬ ∀ (c c' : Config), SetSnowMachineConfigsAnnotations c = .ok c' →
      c.Cluster.ManagementClusterName = "" →
      ∀ name m, mapGet c'.SnowMachineConfigs name = some m →
        mapGet m.Annotations managedByAnnotation = none := by
  intro h
  have := h managementConfigPreannotated
    { managementConfigPreannotated with
      SnowMachineConfigs :=
        [("cp-machine",
          { machineNamed "cp-machine" with
            Annotations := [("anywhere.eks.amazonaws.com/managed-by", "former-mgmt"),
              ("anywhere.eks.amazonaws.com/control-plane", "true")] })] }
    rfl rfl "cp-machine" _ rfl
  revert this
  decide

/-- C11, amended: after a successful annotation step, for a workload cluster
the machine configs stamped as control plane or etcd carry managed-by equal to
the name of the management cluster; for a management cluster the step adds no
managed-by annotation: on every machine config that annotation is as it was
before the call, so none carries it unless it already did. -/
theorem SetSnowMachineConfigsAnnotations_managed_by (c c' : Config)
    (hok : SetSnowMachineConfigsAnnotations c = .ok c') :
    (c.Cluster.ManagementClusterName ≠ "" →
      annotationOf c'.SnowMachineConfigs c.Cluster.ControlPlaneMachineGroupRef.Name
        managedByAnnotation = some (some c.Cluster.ManagementClusterName) ∧
      ∀ ref, c.Cluster.ExternalEtcdMachineGroupRef = some ref →
        annotationOf c'.SnowMachineConfigs ref.Name managedByAnnotation =
          some (some c.Cluster.ManagementClusterName)) ∧
    (c.Cluster.ManagementClusterName = "" →
      (∀ name, annotationOf c'.SnowMachineConfigs name managedByAnnotation =
        annotationOf c.SnowMachineConfigs name managedByAnnotation) ∧
      ((∀ name m, mapGet c.SnowMachineConfigs name = some m →
          mapGet m.Annotations managedByAnnotation = none) →
        ∀ name m, mapGet c'.SnowMachineConfigs name = some m →
          mapGet m.Annotations managedByAnnotation = none)) := by
  have hmc : managedByAnnotation ≠ controlPlaneAnnotation := by decide
  have hme : managedByAnnotation ≠ etcdAnnotation := by decide
  refine ⟨fun hn => ?_, fun hn => ?_⟩
  · obtain ⟨-, ⟨e, he, -, hmb⟩, hetcd⟩ := SetSnowMachineConfigsAnnotations_ok_entries c c' hok
    refine ⟨by simp [annotationOf, he, hmb hn], fun ref href => ?_⟩
    obtain ⟨e2, he2, -, hmb2⟩ := hetcd ref href
    simp [annotationOf, he2, hmb2 hn]
  · have hkeep : ∀ name, annotationOf c'.SnowMachineConfigs name managedByAnnotation =
        annotationOf c.SnowMachineConfigs name managedByAnnotation := by
      intro name
      obtain ⟨m, hm, h⟩ := SetSnowMachineConfigsAnnotations_ok c c' hok
      have hstep1 := annotationOf_mapSet_preserved c.SnowMachineConfigs
        c.Cluster.ControlPlaneMachineGroupRef.Name managedByAnnotation m
        (setManagedBy c.Cluster (m.setAnnotation controlPlaneAnnotation "true")) hm
        (by rw [setManagedBy_of_management _ _ hn]
            simp [SnowMachineConfig.setAnnotation, mapGet_mapSet_ne _ _ _ _ hmc])
      rcases h with ⟨-, rfl⟩ | ⟨ref, m2, -, hm2, rfl⟩
      · exact hstep1 name
      · have hstep2 := annotationOf_mapSet_preserved _ ref.Name managedByAnnotation m2
          (setManagedBy c.Cluster (m2.setAnnotation etcdAnnotation "true")) hm2
          (by rw [setManagedBy_of_management _ _ hn]
              simp [SnowMachineConfig.setAnnotation, mapGet_mapSet_ne _ _ _ _ hme])
        exact (hstep2 name).trans (hstep1 name)
    refine ⟨hkeep, fun hnone name m hm => ?_⟩
    have h1 := hkeep name
    simp only [annotationOf, hm, Option.map_some'] at h1
    cases hc : mapGet c.SnowMachineConfigs name with
    | none => simp [hc] at h1
    | some m0 =>
      simp only [hc, Option.map_some', Option.some.injEq] at h1
      rw [h1]
      exact hnone name m0 hc

/-- Witness of amended C11 on the two cases of the test: the workload cluster
gets managed-by = "mgmt-cluster" on both stamped entries, the management
cluster gets no managed-by annotation. -/
theorem SetSnowMachineConfigsAnnotations_managed_by_witness :
    (∃ c', SetSnowMachineConfigsAnnotations workloadConfig = .ok c' ∧
      annotationOf c'.SnowMachineConfigs "cp-machine" managedByAnnotation =
        some (some "mgmt-cluster") ∧
      annotationOf c'.SnowMachineConfigs "etcd-machine" managedByAnnotation =
        some (some "mgmt-cluster")) ∧
    (∃ c', SetSnowMachineConfigsAnnotations managementConfig = .ok c' ∧
      ∀ name m, mapGet c'.SnowMachineConfigs name = some m →
        mapGet m.Annotations managedByAnnotation = none) :=
  ⟨⟨_, rfl,
      ((SetSnowMachineConfigsAnnotations_managed_by workloadConfig _ rfl).1 (by decide)).1,
      ((SetSnowMachineConfigsAnnotations_managed_by workloadConfig _ rfl).1 (by decide)).2
        _ rfl⟩,
    ⟨_, rfl,
      ((SetSnowMachineConfigsAnnotations_managed_by managementConfig _ rfl).2 rfl).2
        (by
          intro name m h
          simp only [managementConfig, mapGet] at h
          split at h
          · injection h with h; subst h; rfl
          · cases h)⟩⟩

/-- Stamping a role on a machine config that already carries that role and the
management cluster's name changes nothing. -/
theorem stamp_of_stamped (cluster : Cluster) (m : SnowMachineConfig) (key : String)
    (hrole : mapGet m.Annotations key = some "true")
    (hmanaged : cluster.ManagementClusterName ≠ "" →
      mapGet m.Annotations managedByAnnotation = some cluster.ManagementClusterName) :
    setManagedBy cluster (m.setAnnotation key "true") = m := by
  have h1 : m.setAnnotation key "true" = m := by
    cases m
    simp only [SnowMachineConfig.setAnnotation] at hrole ⊢
    rw [mapSet_of_mapGet _ _ _ hrole]
  rw [h1]
  unfold setManagedBy
  split
  · rfl
  · rename_i hn
    cases m
    simp only [SnowMachineConfig.setAnnotation] at hmanaged ⊢
    rw [mapSet_of_mapGet _ _ _ (hmanaged hn)]

/-- C12: the annotation step is idempotent: on every config on which it
succeeds, applying it to the outcome succeeds again and returns that outcome
unchanged, so every machine config keeps exactly the annotations it had after
the first application. -/
theorem SetSnowMachineConfigsAnnotations_idempotent (c c' : Config)
    (hok : SetSnowMachineConfigsAnnotations c = .ok c') :
    SetSnowMachineConfigsAnnotations c' = .ok c' ∧
    ∀ c'', SetSnowMachineConfigsAnnotations c' = .ok c'' →
      ∀ name, (mapGet c''.SnowMachineConfigs name).map (fun m => m.Annotations) =
        (mapGet c'.SnowMachineConfigs name).map (fun m => m.Annotations) := by
  have hfix : SetSnowMachineConfigsAnnotations c' = .ok c' := by
    obtain ⟨hcl, ⟨e, he, hrole, hmb⟩, hetcd⟩ :=
      SetSnowMachineConfigsAnnotations_ok_entries c c' hok
    obtain ⟨cluster', configs'⟩ := c'
    simp only at hcl he hetcd
    subst hcl
    unfold SetSnowMachineConfigsAnnotations
    simp only [he]
    rw [stamp_of_stamped c.Cluster e _ hrole hmb, mapSet_of_mapGet _ _ _ he]
    cases hr : c.Cluster.ExternalEtcdMachineGroupRef with
    | none => rfl
    | some ref =>
      obtain ⟨e2, he2, hrole2, hmb2⟩ := hetcd ref hr
      simp only [he2]
      rw [stamp_of_stamped c.Cluster e2 _ hrole2 hmb2, mapSet_of_mapGet _ _ _ he2]
  refine ⟨hfix, fun c'' h name => ?_⟩
  rw [hfix] at h
  injection h with h
  rw [h]

/-- Witness of C12 on the test case "workload cluster with external etcd". -/
theorem SetSnowMachineConfigsAnnotations_idempotent_witness :
    ∃ c', SetSnowMachineConfigsAnnotations workloadConfig = .ok c' ∧
      SetSnowMachineConfigsAnnotations c' = .ok c' :=
  ⟨_, rfl, (SetSnowMachineConfigsAnnotations_idempotent workloadConfig _ rfl).1⟩

/-- C13: on a Snow datacenter config whose `IdentityRef` is empty,
`SetSnowDatacenterIndentityRefDefault` sets `IdentityRef` to kind "Secret" and
name "<name>-snow-credentials" and changes nothing else; a config whose
`IdentityRef` is already set is left as it is. -/
theorem SetSnowDatacenterIndentityRefDefault_spec (s : SnowDatacenterConfig) :
    (s.IdentityRef = Ref.empty →
      SetSnowDatacenterIndentityRefDefault s =
        { s with IdentityRef :=
            { Kind := "Secret", Name := s.Name ++ "-snow-credentials", Namespace := "" } }) ∧
    (s.IdentityRef ≠ Ref.empty → SetSnowDatacenterIndentityRefDefault s = s) := by
  constructor
  · intro h; simp [SetSnowDatacenterIndentityRefDefault, h]
  · intro h; simp [SetSnowDatacenterIndentityRefDefault, h]

/-- Witness of C13 on the two cases of the test: the config named "test" gets
the identity "test-snow-credentials", the config with identity "creds-1" is
left alone. -/
theorem SetSnowDatacenterIndentityRefDefault_spec_witness :
    SetSnowDatacenterIndentityRefDefault datacenterWithoutIdentity =
      { datacenterWithoutIdentity with
        IdentityRef := { Kind := "Secret", Name := "test-snow-credentials", Namespace := "" } } ∧
    SetSnowDatacenterIndentityRefDefault datacenterWithIdentity = datacenterWithIdentity :=
  ⟨(SetSnowDatacenterIndentityRefDefault_spec datacenterWithoutIdentity).1 rfl,
   (SetSnowDatacenterIndentityRefDefault_spec datacenterWithIdentity).2 (by decide)⟩

/-- When all machine configs are fetched, they are stored under the names of the
Refs, in order, and one request was made for each Ref. -/
theorem fetchMachineConfigs_ok (getter : ObjectGetter) (kind ns : String) (refs : List Ref)
    (configs : List (String × SnowMachineConfig))
    (hok : (fetchMachineConfigs getter kind ns refs).1 = .ok configs) :
    configs.map Prod.fst = refs.map (fun r => r.Name) ∧
    (fetchMachineConfigs getter kind ns refs).2 =
      refs.map (fun r => { Kind := kind, Name := r.Name, Namespace := ns }) := by
  induction refs generalizing configs with
  | nil =>
    simp [fetchMachineConfigs] at hok ⊢
    subst hok; rfl
  | cons r rs ih =>
    unfold fetchMachineConfigs at hok ⊢
    cases hg : getter.GetMachineConfig kind r.Name ns with
    | error e => simp [hg] at hok
    | ok m =>
      simp only [hg] at hok ⊢
      cases hrest : fetchMachineConfigs getter kind ns rs with
      | mk res fetches =>
        cases res with
        | error e => simp [hrest] at hok
        | ok rest =>
          simp only [hrest] at hok ⊢
          injection hok with hok
          subst hok
          have := ih rest (by rw [hrest])
          rw [hrest] at this
          exact ⟨by simp [this.1], by simpa using this.2⟩

/-- Dropping the worker-group Refs of another Kind from the descriptor leaves
the Refs to resolve as they were. -/
theorem machineRefsToResolve_foreign_workers (provider : Provider) (descriptor : Cluster) :
    machineRefsToResolve provider
      { descriptor with
        WorkerNodeGroupMachineGroupRefs :=
          descriptor.WorkerNodeGroupMachineGroupRefs.filter
            (fun r => decide (r.Kind = provider.MachineConfigKind)) } =
    machineRefsToResolve provider descriptor := by
  simp [machineRefsToResolve, List.filter_filter]

/-- The parts of an aggregate that resolution fills in. -/
theorem Resolve_kind_mismatch (provider : Provider) (getter : ObjectGetter)
    (descriptor : Cluster)
    (hkind : descriptor.DatacenterRef.Kind ≠ provider.DatacenterKind) :
    Resolve provider getter descriptor =
      { result := .ok { Cluster := descriptor, Datacenter := none, MachineConfigs := [],
                        CredentialsSecret := none }
        fetches := [] } := by
  simp [Resolve, hkind]

/-- The outcome of a successful resolution for a descriptor whose datacenter
Kind is the provider's. -/
theorem Resolve_kind_match_ok (provider : Provider) (getter : ObjectGetter)
    (descriptor : Cluster) (agg : ConfigAggregate)
    (hkind : descriptor.DatacenterRef.Kind = provider.DatacenterKind)
    (hok : (Resolve provider getter descriptor).result = .ok agg) :
    ∃ datacenter configs secret,
      getter.GetDatacenter provider.DatacenterKind descriptor.DatacenterRef.Name
        descriptor.Namespace = .ok datacenter ∧
      (fetchMachineConfigs getter provider.MachineConfigKind descriptor.Namespace
        (machineRefsToResolve provider descriptor)).1 = .ok configs ∧
      agg = { Cluster := descriptor, Datacenter := some datacenter,
              MachineConfigs := configs, CredentialsSecret := some secret } ∧
      (Resolve provider getter descriptor).fetches =
        { Kind := provider.DatacenterKind, Name := descriptor.DatacenterRef.Name,
          Namespace := descriptor.Namespace } ::
        ((machineRefsToResolve provider descriptor).map
            (fun r => { Kind := provider.MachineConfigKind, Name := r.Name,
                        Namespace := descriptor.Namespace }) ++
          [{ Kind := (identityToResolve provider descriptor datacenter).Kind,
             Name := (identityToResolve provider descriptor datacenter).Name,
             Namespace := descriptor.Namespace }]) := by
  unfold Resolve at hok ⊢
  simp only [hkind, ne_eq, not_true_eq_false, if_false] at hok ⊢
  cases hd : getter.GetDatacenter provider.DatacenterKind descriptor.DatacenterRef.Name
      descriptor.Namespace with
  | error e => simp [hd] at hok
  | ok datacenter =>
    simp only [hd] at hok ⊢
    cases hm : fetchMachineConfigs getter provider.MachineConfigKind descriptor.Namespace
        (machineRefsToResolve provider descriptor) with
    | mk res fetches =>
      cases res with
      | error e => simp [hm] at hok
      | ok configs =>
        simp only [hm] at hok ⊢
        have hf := (fetchMachineConfigs_ok getter _ _ _ configs (by rw [hm])).2
        rw [hm] at hf
        simp only at hf
        cases hs : getter.GetSecret (identityToResolve provider descriptor datacenter).Name
            descriptor.Namespace with
        | error e => simp [hs] at hok
        | ok secret =>
          simp only [hs] at hok ⊢
          injection hok with hok
          exact ⟨datacenter, configs, secret, rfl, rfl, hok.symm, by rw [hf]⟩

/-- Deduplication only drops Refs. -/
theorem mem_of_mem_dedupByName (refs : List Ref) (r : Ref) (h : r ∈ dedupByName refs) :
    r ∈ refs := by
  induction refs with
  | nil => simp [dedupByName] at h
  | cons x xs ih =>
    simp only [dedupByName, List.mem_cons, List.mem_filter] at h
    rcases h with rfl | ⟨h, -⟩
    · exact List.mem_cons_self _ _
    · exact List.mem_cons_of_mem _ (ih h)

/-- A key that can be read from a map is among its keys. -/
theorem mem_keys_of_mapGet {α : Type} (m : List (String × α)) (k : String) (v : α)
    (h : mapGet m k = some v) : k ∈ m.map Prod.fst := by
  induction m with
  | nil => simp [mapGet] at h
  | cons x xs ih =>
    obtain ⟨k', v'⟩ := x
    by_cases hk : k' = k
    · simp [hk]
    · simp only [mapGet, hk, if_false] at h
      simp [ih h]

/-- C14: for every cluster descriptor and provider, the datacenter field of the
resolved aggregate is the object fetched for the datacenter Ref when the Kind of
that Ref is the provider's Kind, and is nil, with no error returned, when it is
not; worker-group Refs of another Kind are neither fetched nor stored: every
stored machine config goes back to the control-plane Ref, the etcd Ref or a
worker-group Ref of the provider's Kind, and dropping the worker-group Refs of
another Kind from the descriptor changes neither the requests made nor what is
resolved. -/
theorem Resolve_datacenter_by_kind (provider : Provider) (getter : ObjectGetter)
    (descriptor : Cluster) :
    (descriptor.DatacenterRef.Kind = provider.DatacenterKind →
      ∀ agg, (Resolve provider getter descriptor).result = .ok agg →
        ∃ datacenter,
          getter.GetDatacenter provider.DatacenterKind descriptor.DatacenterRef.Name
            descriptor.Namespace = .ok datacenter ∧
          agg.Datacenter = some datacenter) ∧
    (descriptor.DatacenterRef.Kind ≠ provider.DatacenterKind →
      ∃ agg, (Resolve provider getter descriptor).result = .ok agg ∧
        agg.Datacenter = none) ∧
    (∀ agg, (Resolve provider getter descriptor).result = .ok agg →
      ∀ name m, mapGet agg.MachineConfigs name = some m →
        ∃ r : Ref, r.Name = name ∧
          (r = descriptor.ControlPlaneMachineGroupRef ∨
           descriptor.ExternalEtcdMachineGroupRef = some r ∨
           (r ∈ descriptor.WorkerNodeGroupMachineGroupRefs ∧
             r.Kind = provider.MachineConfigKind))) ∧
    ((Resolve provider getter
        { descriptor with
          WorkerNodeGroupMachineGroupRefs :=
            descriptor.WorkerNodeGroupMachineGroupRefs.filter
              (fun r => decide (r.Kind = provider.MachineConfigKind)) }).fetches =
        (Resolve provider getter descriptor).fetches ∧
      ∀ agg, (Resolve provider getter descriptor).result = .ok agg →
        ∃ agg', (Resolve provider getter
          { descriptor with
            WorkerNodeGroupMachineGroupRefs :=
              descriptor.WorkerNodeGroupMachineGroupRefs.filter
                (fun r => decide (r.Kind = provider.MachineConfigKind)) }).result = .ok agg' ∧
          agg'.Datacenter = agg.Datacenter ∧ agg'.MachineConfigs = agg.MachineConfigs ∧
          agg'.CredentialsSecret = agg.CredentialsSecret) := by
  refine ⟨?_, ?_, ?_, ?_⟩
  · intro hkind agg hok
    obtain ⟨datacenter, configs, secret, hd, -, rfl, -⟩ :=
      Resolve_kind_match_ok provider getter descriptor agg hkind hok
    exact ⟨datacenter, hd, rfl⟩
  · intro hkind
    rw [Resolve_kind_mismatch provider getter descriptor hkind]
    exact ⟨_, rfl, rfl⟩
  · intro agg hok name m hget
    by_cases hkind : descriptor.DatacenterRef.Kind = provider.DatacenterKind
    · obtain ⟨datacenter, configs, secret, -, hconfigs, rfl, -⟩ :=
        Resolve_kind_match_ok provider getter descriptor agg hkind hok
      have hkeys := (fetchMachineConfigs_ok getter _ _ _ configs hconfigs).1
      have hmem := mem_keys_of_mapGet _ _ _ hget
      simp only at hmem
      rw [hkeys, List.mem_map] at hmem
      obtain ⟨r, hr, hname⟩ := hmem
      have hr' := mem_of_mem_dedupByName _ r hr
      simp only [List.mem_cons, List.mem_append, Option.mem_toList, Option.mem_def,
        List.mem_filter, decide_eq_true_eq] at hr'
      exact ⟨r, hname, hr'⟩
    · rw [Resolve_kind_mismatch provider getter descriptor hkind] at hok
      injection hok with hok
      subst hok
      simp [mapGet] at hget
  · have hrefs := machineRefsToResolve_foreign_workers provider descriptor
    by_cases hkind : descriptor.DatacenterRef.Kind = provider.DatacenterKind
    · unfold Resolve
      simp only [hkind, ne_eq, not_true_eq_false, if_false, hrefs]
      cases hd : getter.GetDatacenter provider.DatacenterKind descriptor.DatacenterRef.Name
          descriptor.Namespace with
      | error e => simp
      | ok datacenter =>
        simp only
        cases hm : fetchMachineConfigs getter provider.MachineConfigKind descriptor.Namespace
            (machineRefsToResolve provider descriptor) with
        | mk res fetches =>
          cases res with
          | error e => simp
          | ok configs =>
            simp only
            have hid : identityToResolve provider
                { descriptor with
                  WorkerNodeGroupMachineGroupRefs :=
                    descriptor.WorkerNodeGroupMachineGroupRefs.filter
                      (fun r => decide (r.Kind = provider.MachineConfigKind)) } datacenter =
                identityToResolve provider descriptor datacenter := rfl
            simp only [hid]
            cases hs : getter.GetSecret (identityToResolve provider descriptor datacenter).Name
                descriptor.Namespace with
            | error e => simp
            | ok secret =>
              refine ⟨rfl, fun agg hok => ?_⟩
              injection hok with hok
              subst hok
              exact ⟨_, rfl, rfl, rfl, rfl⟩
    · rw [Resolve_kind_mismatch provider getter descriptor hkind]
      rw [Resolve_kind_mismatch provider getter
        { descriptor with
          WorkerNodeGroupMachineGroupRefs :=
            descriptor.WorkerNodeGroupMachineGroupRefs.filter
              (fun r => decide (r.Kind = provider.MachineConfigKind)) } hkind]
      refine ⟨rfl, fun agg hok => ?_⟩
      injection hok with hok
      subst hok
      exact ⟨_, rfl, rfl, rfl, rfl⟩

/-- Witness of C14 on the test `TestDefaultConfigClientBuilderSnowCluster`: the
Snow datacenter is the fetched one, exactly the two Snow machine configs are
stored, machine-3 of the VSphere Kind is not; for a provider of another Kind the
datacenter is nil and no error is returned. -/
theorem Resolve_datacenter_by_kind_witness :
    (∃ agg, (Resolve snowProvider snowTestGetter snowClusterDescriptor).result = .ok agg ∧
      agg.Datacenter = some snowTestDatacenter ∧
      agg.MachineConfigs.length = 2 ∧
      mapGet agg.MachineConfigs "machine-3" = none) ∧
    (∃ agg, (Resolve dockerProvider snowTestGetter snowClusterDescriptor).result = .ok agg ∧
      agg.Datacenter = none) :=
  ⟨⟨_, rfl,
      ((Resolve_datacenter_by_kind snowProvider snowTestGetter snowClusterDescriptor).1 rfl
        _ rfl).elim (fun dc h => h.2.trans (congrArg some (Except.ok.inj (h.1.symm.trans rfl)))),
      rfl, rfl⟩,
    (Resolve_datacenter_by_kind dockerProvider snowTestGetter snowClusterDescriptor).2.1
      (by decide)⟩

/-- The poll step once the deadline has passed. -/
theorem pollUntilReady_of_deadline (env : InstallEnv) (deadline attempt now : Nat)
    (h : deadline ≤ now) :
    pollUntilReady env deadline attempt now = { err := some .DeadlineExceeded, polls := [] } := by
  rw [pollUntilReady]
  simp [h]

/-- The poll step when the next poll finds the controller active. -/
theorem pollUntilReady_of_ready (env : InstallEnv) (deadline attempt now : Nat)
    (h : now < deadline) (hready : (env.GetObject attempt).ready = true) :
    pollUntilReady env deadline attempt now = { err := none, polls := [attempt] } := by
  rw [pollUntilReady]
  simp [Nat.not_le.mpr h, hready]

/-- The poll step when the next poll does not find the controller active. -/
theorem pollUntilReady_of_not_ready (env : InstallEnv) (deadline attempt now : Nat)
    (h : now < deadline) (hready : (env.GetObject attempt).ready = false) :
    pollUntilReady env deadline attempt now =
      { err := (pollUntilReady env deadline (attempt + 1)
          (now + (env.GetObject attempt).duration + env.pollInterval)).err
        polls := attempt :: (pollUntilReady env deadline (attempt + 1)
          (now + (env.GetObject attempt).duration + env.pollInterval)).polls } := by
  rw [pollUntilReady]
  simp [Nat.not_le.mpr h, hready]

/-- The timeout of the poll step is positive. -/
theorem effectiveTimeout_pos (pc : PackageControllerClient) (env : InstallEnv) :
    0 < effectiveTimeout pc env := by
  unfold effectiveTimeout
  split
  · exact env.defaultActiveBundleTimeout.pos
  · omega

/-- The shape of `InstallController` once the chart is installed. -/
theorem InstallController_of_chart_installed (pc : PackageControllerClient) (env : InstallEnv)
    (hchart : env.InstallChart (chartRequest pc env) = none) :
    (InstallController pc env).err = (pollUntilReady env (effectiveTimeout pc env) 0 0).err ∧
    ∃ manifest applyParams jobParams,
      (InstallController pc env).calls =
        [.InstallChart (chartRequest pc env) none,
         .ExecuteFromYaml manifest applyParams (env.ExecuteFromYaml manifest applyParams),
         .ExecuteCommand jobParams (env.ExecuteCommand jobParams)] ++
        (pollUntilReady env (effectiveTimeout pc env) 0 0).polls.map InstallCall.GetObject := by
  unfold InstallController
  split
  · rename_i cause h
    rw [hchart] at h
    cases h
  · exact ⟨rfl, _, _, _, rfl⟩

/-- C15: when `InstallChart` returns an error, `InstallController` returns a
non-nil error and makes no other call: no secret apply, no job trigger, no
poll. -/
theorem InstallController_chart_failure_aborts (pc : PackageControllerClient)
    (env : InstallEnv) (cause : String)
    (hchart : env.InstallChart (chartRequest pc env) = some cause) :
    (InstallController pc env).err ≠ none ∧
    (InstallController pc env).calls = [.InstallChart (chartRequest pc env) (some cause)] ∧
    ∀ c ∈ (InstallController pc env).calls, c.isAfterChart = false := by
  unfold InstallController
  split
  · rename_i cause' h
    rw [hchart] at h
    injection h with h
    subst h
    refine ⟨by simp, rfl, ?_⟩
    intro c hc
    simp at hc
    subst hc
    rfl
  · rename_i h
    rw [hchart] at h
    cases h

/-- Witness of C15 on `TestInstallControllerFail`. -/
theorem InstallController_chart_failure_aborts_witness :
    (InstallController testClient installEnvChartFails).err ≠ none ∧
    (InstallController testClient installEnvChartFails).calls =
      [.InstallChart (chartRequest testClient installEnvChartFails) (some "login failed")] ∧
    ∀ c ∈ (InstallController testClient installEnvChartFails).calls, c.isAfterChart = false :=
  InstallController_chart_failure_aborts testClient installEnvChartFails "login failed" rfl

/-- The poll step depends on the environment only through the polls and the
poll interval. -/
theorem pollUntilReady_congr (env env' : InstallEnv) (deadline : Nat)
    (hget : env'.GetObject = env.GetObject) (hint : env'.pollInterval = env.pollInterval) :
    ∀ n attempt now, deadline - now ≤ n →
      pollUntilReady env' deadline attempt now = pollUntilReady env deadline attempt now := by
  intro n
  induction n with
  | zero =>
    intro attempt now h
    rw [pollUntilReady_of_deadline env' deadline attempt now (by omega),
      pollUntilReady_of_deadline env deadline attempt now (by omega)]
  | succ n ih =>
    intro attempt now h
    by_cases hd : deadline ≤ now
    · rw [pollUntilReady_of_deadline env' deadline attempt now hd,
        pollUntilReady_of_deadline env deadline attempt now hd]
    · cases hready : (env.GetObject attempt).ready
      · rw [pollUntilReady_of_not_ready env' deadline attempt now (by omega)
            (by rw [hget]; exact hready),
          pollUntilReady_of_not_ready env deadline attempt now (by omega) hready]
        have hpos := env.pollInterval.pos
        rw [hget, hint, ih (attempt + 1) _ (by omega)]
      · rw [pollUntilReady_of_ready env' deadline attempt now (by omega)
            (by rw [hget]; exact hready),
          pollUntilReady_of_ready env deadline attempt now (by omega) hready]

/-- C16: once the chart is installed, a failure of the secret apply or of the
job trigger is swallowed: the secret apply, the job trigger and the polls all
take place, in this order and with at least one poll; the returned error and
the polls made are the same whatever the secret apply and the job trigger
return; and no error is returned when the poll finds a non-empty active
bundle. -/
theorem InstallController_best_effort_steps (pc : PackageControllerClient) (env : InstallEnv)
    (hchart : env.InstallChart (chartRequest pc env) = none) :
    (∃ manifest applyParams jobParams polls,
      (InstallController pc env).calls =
        [.InstallChart (chartRequest pc env) none,
         .ExecuteFromYaml manifest applyParams (env.ExecuteFromYaml manifest applyParams),
         .ExecuteCommand jobParams (env.ExecuteCommand jobParams)] ++
        (0 :: polls).map InstallCall.GetObject) ∧
    (∀ (apply : String → List String → Option String) (job : List String → Option String),
      (InstallController pc { env with ExecuteFromYaml := apply, ExecuteCommand := job }).err =
        (InstallController pc env).err ∧
      pollsOf (InstallController pc
          { env with ExecuteFromYaml := apply, ExecuteCommand := job }).calls =
        pollsOf (InstallController pc env).calls) ∧
    ((env.GetObject 0).ready = true → (InstallController pc env).err = none) := by
  obtain ⟨herr, manifest, applyParams, jobParams, hcalls⟩ :=
    InstallController_of_chart_installed pc env hchart
  have hpos := effectiveTimeout_pos pc env
  refine ⟨?_, ?_, ?_⟩
  · cases hready : (env.GetObject 0).ready
    · rw [pollUntilReady_of_not_ready env _ 0 0 hpos hready] at hcalls
      exact ⟨manifest, applyParams, jobParams, _, hcalls⟩
    · rw [pollUntilReady_of_ready env _ 0 0 hpos hready] at hcalls
      exact ⟨manifest, applyParams, jobParams, [], hcalls⟩
  · intro apply job
    obtain ⟨herr', manifest', applyParams', jobParams', hcalls'⟩ :=
      InstallController_of_chart_installed pc
        { env with ExecuteFromYaml := apply, ExecuteCommand := job } hchart
    have hsame := pollUntilReady_congr env
      { env with ExecuteFromYaml := apply, ExecuteCommand := job }
      (effectiveTimeout pc env) rfl rfl _ 0 0 (Nat.le_refl _)
    have htimeout : effectiveTimeout pc
        { env with ExecuteFromYaml := apply, ExecuteCommand := job } =
        effectiveTimeout pc env := rfl
    rw [htimeout, hsame] at herr' hcalls'
    refine ⟨by rw [herr', herr], ?_⟩
    rw [hcalls', hcalls]
    simp [pollsOf]
  · intro hready
    rw [herr, pollUntilReady_of_ready env _ 0 0 hpos hready]

/-- Witness of C16: with both best-effort steps failing and the bundle active,
`InstallController` returns no error. -/
theorem InstallController_best_effort_steps_witness :
    installEnvBestEffortFails.ExecuteFromYaml "" [] = some "error applying secrets" ∧
    installEnvBestEffortFails.ExecuteCommand [] = some "error creating cron job" ∧
    (InstallController testClient installEnvBestEffortFails).err = none :=
  ⟨rfl, rfl,
    (InstallController_best_effort_steps testClient installEnvBestEffortFails rfl).2.2 rfl⟩

/-- C17: the values passed to `InstallChart` are "sourceRegistry=<registry>" and
"clusterName=<cluster name>", in this order, when the HTTP or the HTTPS proxy
value is empty, and these followed by "proxy.HTTP_PROXY=<http>",
"proxy.HTTPS_PROXY=<https>" and "proxy.NO_PROXY=<entries joined by a backslash
and a comma>" when both are non-empty; the chart install is the first call. -/
theorem InstallController_chart_values (pc : PackageControllerClient) (env : InstallEnv) :
    (pc.httpProxy = "" ∨ pc.httpsProxy = "" →
      chartValues pc env =
        ["sourceRegistry=" ++ env.GetRegistry pc.uri, "clusterName=" ++ pc.clusterName]) ∧
    (pc.httpProxy ≠ "" ∧ pc.httpsProxy ≠ "" →
      chartValues pc env =
        ["sourceRegistry=" ++ env.GetRegistry pc.uri, "clusterName=" ++ pc.clusterName,
         "proxy.HTTP_PROXY=" ++ pc.httpProxy, "proxy.HTTPS_PROXY=" ++ pc.httpsProxy,
         "proxy.NO_PROXY=" ++ String.intercalate "\\," pc.noProxy]) ∧
    (InstallController pc env).calls.head? =
      some (.InstallChart
        { chart := pc.chartName, ociRef := "oci://" ++ pc.uri, version := pc.chartVersion,
          kubeconfig := pc.kubeConfig, targetNamespace := "eksa-packages",
          values := chartValues pc env }
        (env.InstallChart (chartRequest pc env))) := by
  refine ⟨?_, ?_, ?_⟩
  · intro h
    unfold chartValues
    rcases h with h | h <;> simp [h]
  · intro h
    unfold chartValues
    simp [h.1, h.2]
  · unfold InstallController
    cases h : env.InstallChart (chartRequest pc env) <;> simp [chartRequest]

/-- Witness of C17 on `TestInstallControllerSuccess` and
`TestInstallControllerWithProxy`. -/
theorem InstallController_chart_values_witness :
    chartValues testClient installEnvSuccess = ["sourceRegistry=test", "clusterName=billy"] ∧
    chartValues testClientWithProxy installEnvSuccess =
      ["sourceRegistry=test", "clusterName=billy", "proxy.HTTP_PROXY=1.1.1.1",
       "proxy.HTTPS_PROXY=1.1.1.1", "proxy.NO_PROXY=1.1.1.1/24"] :=
  ⟨((InstallController_chart_values testClient installEnvSuccess).1 (Or.inl rfl)).trans
      (by decide),
   ((InstallController_chart_values testClientWithProxy installEnvSuccess).2.1
      ⟨by decide, by decide⟩).trans (by decide)⟩

/-- Later polls begin later. -/
theorem pollStart_mono (env : InstallEnv) (a b : Nat) (hab : a ≤ b) :
    pollStart env a ≤ pollStart env b := by
  induction b with
  | zero =>
    have : a = 0 := by omega
    subst this
    exact Nat.le_refl _
  | succ n ih =>
    by_cases h : a = n + 1
    · subst h; exact Nat.le_refl _
    · have := ih (by omega)
      simp only [pollStart]
      omega

/-- When polls `a`, ..., `k - 1` do not find the controller active, poll `k`
does and begins before the deadline, the poll step started at poll `a` makes
exactly the polls `a`, ..., `k` and returns no error. -/
theorem pollUntilReady_succeeds_at (env : InstallEnv) (deadline k : Nat)
    (hbefore : ∀ i, i < k → (env.GetObject i).ready = false)
    (hready : (env.GetObject k).ready = true)
    (htime : pollStart env k < deadline) :
    ∀ d a, a + d = k →
      pollUntilReady env deadline a (pollStart env a) =
        { err := none, polls := List.range' a (d + 1) } := by
  intro d
  induction d with
  | zero =>
    intro a ha
    have : a = k := by omega
    subst this
    rw [pollUntilReady_of_ready env deadline a _ htime hready]
    rfl
  | succ n ih =>
    intro a ha
    have hlt : pollStart env a < deadline :=
      Nat.lt_of_le_of_lt (pollStart_mono env a k (by omega)) htime
    rw [pollUntilReady_of_not_ready env deadline a _ hlt (hbefore a (by omega))]
    have hnext := ih (a + 1) (by omega)
    simp only [pollStart] at hnext
    rw [hnext]
    simp [List.range'_succ]

/-- C18: for every k, when the chart is installed, the first k polls return an
error or an empty `ActiveBundle`, poll k+1 returns a non-empty `ActiveBundle`
and begins before the timeout, `InstallController` makes exactly k+1 polls and
returns no error. -/
theorem InstallController_polls_until_active (pc : PackageControllerClient)
    (env : InstallEnv) (k : Nat)
    (hchart : env.InstallChart (chartRequest pc env) = none)
    (hbefore : ∀ i, i < k → (env.GetObject i).ready = false)
    (hready : (env.GetObject k).ready = true)
    (htime : pollStart env k < effectiveTimeout pc env) :
    (InstallController pc env).err = none ∧
    pollsOf (InstallController pc env).calls = List.range (k + 1) := by
  obtain ⟨herr, manifest, applyParams, jobParams, hcalls⟩ :=
    InstallController_of_chart_installed pc env hchart
  have hpoll := pollUntilReady_succeeds_at env (effectiveTimeout pc env) k hbefore hready
    htime k 0 (by omega)
  simp only [pollStart] at hpoll
  rw [herr, hcalls, hpoll]
  refine ⟨rfl, ?_⟩
  simp only [pollsOf, List.filterMap_append, List.filterMap_cons, List.filterMap_nil,
    List.nil_append, List.filterMap_map]
  rw [List.range_eq_range']
  generalize List.range' 0 (k + 1) = l
  induction l with
  | nil => rfl
  | cons x xs ih => simp [List.filterMap_cons, ih]

/-- Witness of C18 on `TestInstallControllerActiveBundleWaitLoops`: two polls
with an empty bundle, then "test-bundle" on the third. -/
theorem InstallController_polls_until_active_witness :
    (InstallController testClient installEnvLoops).err = none ∧
    pollsOf (InstallController testClient installEnvLoops).calls = [0, 1, 2] :=
  InstallController_polls_until_active testClient installEnvLoops 2 rfl
    (by intro i hi; interval_cases i <;> rfl) rfl (by decide)

/-- When no poll that begins before the deadline finds the controller active, the
poll step ends with the deadline-exceeded error. -/
theorem pollUntilReady_times_out (env : InstallEnv) (deadline : Nat)
    (hnever : ∀ i, pollStart env i < deadline → (env.GetObject i).ready = false) :
    ∀ n a, deadline - pollStart env a ≤ n →
      (pollUntilReady env deadline a (pollStart env a)).err = some .DeadlineExceeded := by
  intro n
  induction n with
  | zero =>
    intro a ha
    rw [pollUntilReady_of_deadline env deadline a _ (by omega)]
  | succ n ih =>
    intro a ha
    by_cases hd : deadline ≤ pollStart env a
    · rw [pollUntilReady_of_deadline env deadline a _ hd]
    · rw [pollUntilReady_of_not_ready env deadline a _ (by omega) (hnever a (by omega))]
      have hstep : pollStart env (a + 1) =
          pollStart env a + (env.GetObject a).duration + env.pollInterval := rfl
      have hpos := env.pollInterval.pos
      have := ih (a + 1) (by omega)
      rw [hstep] at this
      exact this

/-- C19: when the chart is installed and no poll that begins before the
configured timeout has elapsed returns a non-empty `ActiveBundle` (each one
returns an error or an empty bundle), `InstallController` returns the
deadline-exceeded error. -/
theorem InstallController_times_out (pc : PackageControllerClient) (env : InstallEnv)
    (hchart : env.InstallChart (chartRequest pc env) = none)
    (hnever : ∀ i, pollStart env i < effectiveTimeout pc env →
      (env.GetObject i).ready = false) :
    (InstallController pc env).err = some .DeadlineExceeded := by
  obtain ⟨herr, -⟩ := InstallController_of_chart_installed pc env hchart
  rw [herr]
  exact pollUntilReady_times_out env _ hnever _ 0 (Nat.le_refl _)

/-- Witness of C19 on `TestInstallControllerActiveBundleTimesOut`: a timeout of
one millisecond, polls that take a second and fail. -/
theorem InstallController_times_out_witness :
    (InstallController testClientShortTimeout installEnvDelay).err =
      some .DeadlineExceeded :=
  InstallController_times_out testClientShortTimeout installEnvDelay rfl
    (fun _ _ => rfl)

/-- A word that shares no character with `new` and occurs in `new ++ l` occurs
in `l`. -/
theorem infix_of_infix_append_disjoint (v new l : List Char)
    (hdisj : ∀ c ∈ new, c ∉ v) (h : v <:+: new ++ l) : v <:+: l := by
  induction new with
  | nil => simpa using h
  | cons x xs ih =>
    rw [List.cons_append, List.infix_cons_iff] at h
    rcases h with h | h
    · cases v with
      | nil => exact List.nil_infix
      | cons y ys =>
        have hxy : y = x := by
          obtain ⟨t, ht⟩ := h
          simp only [List.cons_append, List.cons.injEq] at ht
          exact ht.1
        exact absurd (by simp [hxy]) (hdisj x (List.mem_cons_self _ _))
    · exact ih (fun c hc => hdisj c (List.mem_cons_of_mem _ hc)) h

/-- A word that shares no character with the non-empty replacement `new` and
begins the output of a replacement pass begins its input. -/
theorem replaceAllAux_prefix (old new : List Char) (hnew : new ≠ []) :
    ∀ fuel s v, (∀ c ∈ new, c ∉ v) →
      v <+: replaceAllAux old new fuel s → v <+: s := by
  intro fuel
  induction fuel with
  | zero =>
    intro s v _ h
    cases s <;> simpa [replaceAllAux] using h
  | succ n ih =>
    intro s v hdisj h
    cases s with
    | nil => simpa [replaceAllAux] using h
    | cons c cs =>
      cases v with
      | nil => exact List.nil_prefix
      | cons y ys =>
        simp only [replaceAllAux] at h
        split at h
        · cases new with
          | nil => exact absurd rfl hnew
          | cons x xs =>
            obtain ⟨t, ht⟩ := h
            simp only [List.cons_append, List.cons.injEq] at ht
            exact absurd (by simp [ht.1]) (hdisj x (List.mem_cons_self _ _))
        · rw [List.cons_prefix_cons] at h ⊢
          exact ⟨h.1, ih cs ys (fun c hc hmem => hdisj c hc (List.mem_cons_of_mem _ hmem)) h.2⟩

/-- A non-empty word that shares no character with the non-empty replacement
`new` and occurs in the output of a replacement pass for a non-empty `old`
occurs in its input and is not `old`: the pass removes every occurrence of `old`
and creates no occurrence of such a word. -/
theorem replaceAllAux_infix (old new : List Char) (hold : old ≠ []) (hnew : new ≠ [])
    (v : List Char) (hv : v ≠ []) (hdisj : ∀ c ∈ new, c ∉ v) :
    ∀ fuel s, s.length ≤ fuel →
      v <:+: replaceAllAux old new fuel s → v <:+: s ∧ v ≠ old := by
  intro fuel
  induction fuel with
  | zero =>
    intro s hs h
    have : s = [] := List.length_eq_zero.mp (by omega)
    subst this
    simp only [replaceAllAux] at h
    exact absurd (List.eq_nil_of_infix_nil h) hv
  | succ n ih =>
    intro s hs h
    cases s with
    | nil =>
      simp only [replaceAllAux] at h
      exact absurd (List.eq_nil_of_infix_nil h) hv
    | cons c cs =>
      simp only [replaceAllAux] at h
      split at h
      · have hlen : ((c :: cs).drop old.length).length ≤ n := by
          have : 0 < old.length := List.length_pos.mpr hold
          simp only [List.length_drop, List.length_cons] at hs ⊢
          omega
        have h' := infix_of_infix_append_disjoint v new _ hdisj h
        obtain ⟨hin, hne⟩ := ih _ hlen h'
        exact ⟨hin.trans (List.drop_suffix _ _).isInfix, hne⟩
      · rename_i hp
        have hlen : cs.length ≤ n := by
          simp only [List.length_cons] at hs
          omega
        rw [List.infix_cons_iff] at h
        rcases h with h | h
        · have hv' : v <+: c :: cs := by
            have := replaceAllAux_prefix old new hnew (n + 1) (c :: cs) v hdisj
            simp only [replaceAllAux, hp, if_false] at this
            exact this h
          refine ⟨hv'.isInfix, fun heq => hp ?_⟩
          rw [List.isPrefixOf_iff_prefix, ← heq]
          exact hv'
        · obtain ⟨hin, hne⟩ := ih cs hlen h
          exact ⟨List.infix_cons hin, hne⟩

/-- One redaction step: a non-empty value without `*` that occurs in the output
of `ReplaceAll s old redactMask`, for a non-empty `old`, occurs in `s` and is
not `old`. -/
theorem ReplaceAll_redactMask_infix (s old v : String) (hold : old ≠ "")
    (hv : v ≠ "") (hstar : '*' ∉ v.data)
    (h : v.data <:+: (ReplaceAll s old redactMask).data) :
    v.data <:+: s.data ∧ v ≠ old := by
  have hvd : v.data ≠ [] := fun hnil => hv (String.ext hnil)
  have hod : old.data ≠ [] := fun hnil => hold (String.ext hnil)
  have hmask : redactMask.data = ['*', '*', '*', '*', '*'] := rfl
  have hdisj : ∀ c ∈ redactMask.data, c ∉ v.data := by
    intro c hc
    rw [hmask] at hc
    simp only [List.mem_cons, List.mem_singleton, List.not_mem_nil, or_false, or_self] at hc
    rw [hc]
    exact hstar
  have hne : redactMask.data ≠ [] := by rw [hmask]; simp
  unfold ReplaceAll replaceAllChars at h
  cases hdata : old.data with
  | nil => exact absurd hdata hod
  | cons c cs =>
    simp only [hdata] at h
    have := replaceAllAux_infix (c :: cs) redactMask.data (by simp) hne v.data hvd hdisj
      s.data.length s.data (Nat.le_refl _) h
    refine ⟨this.1, fun heq => this.2 ?_⟩
    rw [heq, hdata]

/-- Redacting a list of non-empty values without `*`: a value of the list, or
any such value that does not occur in the command, does not occur in the
redacted command. -/
theorem redact_fold_hides (values : List String)
    (hvalues : ∀ w ∈ values, w ≠ "" ∧ '*' ∉ w.data)
    (v : String) (hv : v ≠ "") (hstar : '*' ∉ v.data) :
    ∀ cmd : String, (v ∈ values ∨ ¬ v.data <:+: cmd.data) →
      ¬ v.data <:+:
        (values.foldl (fun cmd redactedEnv => ReplaceAll cmd redactedEnv redactMask) cmd).data := by
  induction values with
  | nil =>
    intro cmd h
    rcases h with h | h
    · cases h
    · exact h
  | cons w ws ih =>
    intro cmd h
    simp only [List.foldl_cons]
    have hw := hvalues w (List.mem_cons_self _ _)
    apply ih (fun x hx => hvalues x (List.mem_cons_of_mem _ hx))
    by_cases hmem : v ∈ ws
    · exact Or.inl hmem
    · right
      intro hin
      obtain ⟨hcmd, hne⟩ := ReplaceAll_redactMask_infix cmd w v hw.1 hv hstar hin
      rcases h with h | h
      · rcases List.mem_cons.mp h with h | h
        · exact hne h
        · exact hmem h
      · exact h hcmd

/-- C20: for every command string and every env map in which each value stored
under a redacted key is non-empty and contains no `*`, the string returned by
`RedactCreds` contains none of those values as a substring, whatever the list
of redacted keys and its order. -/
theorem RedactCreds_hides_values (redactedEnvKeys : List String) (cmd : String)
    (envMap : List (String × String))
    (hvalues : ∀ k ∈ redactedEnvKeys, ∀ v, mapGet envMap k = some v →
      v ≠ "" ∧ '*' ∉ v.data) :
    ∀ k ∈ redactedEnvKeys, ∀ v, mapGet envMap k = some v →
      ¬ v.data <:+: (RedactCreds redactedEnvKeys cmd envMap).data := by
  intro k hk v hkv
  have hgood := hvalues k hk v hkv
  unfold RedactCreds
  apply redact_fold_hides _ _ v hgood.1 hgood.2 cmd
  · left
    rw [List.mem_filterMap]
    exact ⟨k, hk, hkv⟩
  · intro w hw
    rw [List.mem_filterMap] at hw
    obtain ⟨k', hk', hkw⟩ := hw
    exact hvalues k' hk' w hkw

/-- Witness of C20: the redacted sample command holds neither "secret" nor
"topsecret", although the second value contains the first. -/
theorem RedactCreds_hides_values_witness :
    RedactCreds sampleRedactedKeys sampleCommand sampleEnvMap =
      "govc -p ***** login --token=top***** --dir /root" ∧
    ¬ "secret".data <:+: (RedactCreds sampleRedactedKeys sampleCommand sampleEnvMap).data ∧
    ¬ "topsecret".data <:+: (RedactCreds sampleRedactedKeys sampleCommand sampleEnvMap).data :=
  have hvalues : ∀ k ∈ sampleRedactedKeys, ∀ v, mapGet sampleEnvMap k = some v →
      v ≠ "" ∧ '*' ∉ v.data := by
    intro k hk v hv
    simp only [sampleRedactedKeys, List.mem_cons, List.mem_singleton, List.not_mem_nil,
      or_false] at hk
    rcases hk with rfl | rfl | rfl
    · have hnone : mapGet sampleEnvMap "EKSA_VSPHERE_USERNAME" = none := by decide
      rw [hnone] at hv
      cases hv
    · have : v = "secret" := (Option.some.inj hv).symm
      subst this
      decide
    · have : v = "topsecret" := (Option.some.inj hv).symm
      subst this
      decide
  ⟨by decide,
   RedactCreds_hides_values sampleRedactedKeys sampleCommand sampleEnvMap hvalues
     "EKSA_VSPHERE_PASSWORD" (by decide) "secret" rfl,
   RedactCreds_hides_values sampleRedactedKeys sampleCommand sampleEnvMap hvalues
     "GITHUB_TOKEN" (by decide) "topsecret" rfl⟩

/-- C21: when fetching the object fails with an error e, `Reconcile` returns
exactly e and makes no further call: no client build, no validator call, no
patch call. -/
theorem Reconcile_fetch_error_returned (env : Env) (req : NamespacedName) (e : CollabError)
    (hget : env.Get req = .error e) :
    (Reconcile env req).reterr = some (.ext e) ∧
    (Reconcile env req).calls = [.Get req (some e)] ∧
    ∀ c ∈ (Reconcile env req).calls,
      c.isBuild = false ∧ c.isValidate = false ∧ c.isPatch = false := by
  have hrun : Reconcile env req =
      { result := Result.empty, reterr := some (.ext e), obj := none
        calls := [.Get req (some e)] } := by
    unfold Reconcile
    rw [hget]
  rw [hrun]
  refine ⟨rfl, rfl, ?_⟩
  intro c hc
  simp only [List.mem_singleton] at hc
  subst hc
  exact ⟨rfl, rfl, rfl⟩

/-- Witness of C21 on a fetch that fails with a connection error. -/
theorem Reconcile_fetch_error_returned_witness :
    (Reconcile envGetFails sampleRequest).reterr =
      some (.ext { msg := "connection refused", notFound := false }) ∧
    (Reconcile envGetFails sampleRequest).calls =
      [.Get sampleRequest (some { msg := "connection refused", notFound := false })] ∧
    ∀ c ∈ (Reconcile envGetFails sampleRequest).calls,
      c.isBuild = false ∧ c.isValidate = false ∧ c.isPatch = false :=
  Reconcile_fetch_error_returned envGetFails sampleRequest
    { msg := "connection refused", notFound := false } rfl

/-- When none of the redacted keys is present in the env map, `RedactCreds`
returns the command unchanged, whatever other entries the map holds. -/
theorem RedactCreds_of_keys_absent (redactedEnvKeys : List String) (cmd : String)
    (envMap : List (String × String))
    (habsent : ∀ k ∈ redactedEnvKeys, mapGet envMap k = none) :
    RedactCreds redactedEnvKeys cmd envMap = cmd := by
  unfold RedactCreds
  have hnil : redactedEnvKeys.filterMap (fun k => mapGet envMap k) = [] := by
    rw [List.filterMap_eq_nil_iff]
    exact habsent
  simp only [hnil, List.foldl_nil]

/-- C22 fails on the code: with the redacted key "GITHUB_TOKEN" mapped to the
empty string, every redacted key is absent or mapped to the empty string, yet
`RedactCreds` does not return the command "abc" unchanged: the mask is written
before every character and at the end. -/
theorem RedactCreds_empty_value_garbles :
    (∀ k ∈ sampleRedactedKeys,
      mapGet emptyValueEnvMap k = none ∨ mapGet emptyValueEnvMap k = some "") ∧
    RedactCreds sampleRedactedKeys "abc" emptyValueEnvMap = "*****a*****b*****c*****" ∧
    RedactCreds sampleRedactedKeys "abc" emptyValueEnvMap ≠ "abc" := by
  decide

/-- The calls `reconcile` makes are the client build and validator calls, and it
returns an error exactly when one of them returned an error. -/
theorem reconcile_err_none_iff (env : Env) (obj : SnowMachineConfig) :
    (∀ c ∈ (reconcile env obj).calls, c.isBuild = true ∨ c.isValidate = true) ∧
    ((reconcile env obj).err = none ↔ ∀ c ∈ (reconcile env obj).calls, c.ret = none) := by
  unfold reconcile
  split
  · simp [Call.isBuild, Call.ret]
  · split
    · simp [Call.isBuild, Call.isValidate, Call.ret]
    · split
      · simp [Call.isBuild, Call.isValidate, Call.ret]
      · split
        · simp [Call.isBuild, Call.isValidate, Call.ret]
        · simp [Call.isBuild, Call.isValidate, Call.ret]

/-- The options of the deferred patch hold `WithStatusObservedGeneration`
exactly when `reterr` is nil. -/
theorem mem_patchOpts_iff (reterr : Option GoError) :
    PatchOption.WithStatusObservedGeneration ∈ patchOpts reterr ↔ reterr = none := by
  cases reterr <;> simp [patchOpts]

/-- C23: a patch call of `Reconcile` carries `WithStatusObservedGeneration` if
and only if the body returned no error, which is to say that no client build
and no validator call of the run returned an error: the option is present on
the deletion path and on the success path, and absent after a client-build or
validator failure. -/
theorem Reconcile_patch_observed_generation (env : Env) (req : NamespacedName)
    (o : SnowMachineConfig) (opts : List PatchOption) (ret : Option CollabError)
    (hpatch : Call.Patch o opts ret ∈ (Reconcile env req).calls) :
    (PatchOption.WithStatusObservedGeneration ∈ opts ↔
      ∀ c ∈ (Reconcile env req).calls,
        c.isBuild = true ∨ c.isValidate = true → c.ret = none) ∧
    ∃ obj, env.Get req = .ok obj ∧
      (PatchOption.WithStatusObservedGeneration ∈ opts ↔ (reconcileBody env obj).err = none) ∧
      (DeletionTimestampIsZero obj.DeletionTimestamp = false →
        opts = [.WithStatusObservedGeneration]) ∧
      (DeletionTimestampIsZero obj.DeletionTimestamp = true →
        (reconcile env obj).err = none → opts = [.WithStatusObservedGeneration]) ∧
      (DeletionTimestampIsZero obj.DeletionTimestamp = true →
        (reconcile env obj).err ≠ none → opts = []) := by
  obtain ⟨obj, hget, hh, -, hopts, -⟩ := Reconcile_patch_mem env req o opts ret hpatch
  subst hopts
  have hbody : (PatchOption.WithStatusObservedGeneration ∈
      patchOpts (reconcileBody env obj).err ↔ (reconcileBody env obj).err = none) :=
    mem_patchOpts_iff _
  refine ⟨?_, obj, hget, hbody, ?_, ?_, ?_⟩
  · rw [hbody, Reconcile_of_fetched env req obj hget hh, deferredPatch_calls]
    cases hdel : DeletionTimestampIsZero obj.DeletionTimestamp
    · rw [reconcileBody_of_deleting env obj hdel]
      simp [Call.isBuild, Call.isValidate]
    · obtain ⟨-, -, hcalls, herr⟩ := reconcileBody_of_live env obj hdel
      obtain ⟨hkind, hiff⟩ := reconcile_err_none_iff env obj
      rw [hcalls, herr, Option.map_eq_none', hiff]
      constructor
      · intro h c hc hk
        simp only [List.cons_append, List.nil_append, List.mem_cons, List.mem_append,
          List.not_mem_nil, or_false] at hc
        rcases hc with rfl | rfl | hc | rfl
        · rfl
        · rfl
        · exact h c hc
        · simp [Call.isBuild, Call.isValidate] at hk
      · intro h c hc
        exact h c (by simp [hc]) (hkind c hc)
  · intro hdel
    rw [reconcileBody_of_deleting env obj hdel]
    rfl
  · intro hlive herr
    rw [(reconcileBody_of_live env obj hlive).2.2.2, herr]
    rfl
  · intro hlive herr
    rw [(reconcileBody_of_live env obj hlive).2.2.2]
    cases h : (reconcile env obj).err with
    | none => exact absurd h herr
    | some e => rfl

/-- Witness of C23: after a validator failure the patch call carries no option,
on the deletion path it carries `WithStatusObservedGeneration`. -/
theorem Reconcile_patch_observed_generation_witness :
    (Call.Patch (setFailureMessage sampleObject imageError) [] none ∈
        (Reconcile envImageFails sampleRequest).calls ∧
      ¬ (∀ c ∈ (Reconcile envImageFails sampleRequest).calls,
        c.isBuild = true ∨ c.isValidate = true → c.ret = none)) ∧
    (Call.Patch deletingObject [.WithStatusObservedGeneration] none ∈
        (Reconcile envDeleting sampleRequest).calls ∧
      ∀ c ∈ (Reconcile envDeleting sampleRequest).calls,
        c.isBuild = true ∨ c.isValidate = true → c.ret = none) :=
  ⟨⟨by decide,
      fun h => absurd
        ((Reconcile_patch_observed_generation envImageFails sampleRequest
          (setFailureMessage sampleObject imageError) [] none (by decide)).1.mpr h)
        (by decide)⟩,
    ⟨by decide,
      (Reconcile_patch_observed_generation envDeleting sampleRequest deletingObject
        [.WithStatusObservedGeneration] none (by decide)).1.mp (by decide)⟩⟩

end EksAnywhere
